import Mathlib

/-!
# grunt-search: the `search` task of `tasks/search.js`

A shallow embedding of the task registered by `tasks/search.js` and of its helpers
(`_validateOptions`, `_generateLogFile`, `_getJSONLogFormat`, `_getXMLLogFormat`,
`_getTextLogFormat`, `_cleanStr`, `_getISODateString`; the leading underscore of the source
names is dropped), followed by theorems about them.

Modelling conventions.

* Calls into grunt (`grunt.file.*`, `grunt.log.*`, `grunt.fail.fatal`) and calls of the user
  callbacks are recorded, in program order, in a trace of `Effect`s, and each such call is
  taken to return: the code of the task is sequential, also after `grunt.fail.fatal`
  (lines 87 to 95 have no `return`), so the call of `onComplete` and the last `writeln`
  follow a fatal failure.  The answers of the file system, the clock and the
  regular-expression constructor are the fields of `Env`.
* An exception raised by the code of the task itself ends the task; it is recorded as the
  last effect, `Effect.thrown`.  There are two: the `SyntaxError` of `new RegExp(s, "g")` on
  an ill-formed pattern (line 33), and the `TypeError` of `matches.hasOwnProperty(file)`
  (line 67) once `matches` has an own property named `hasOwnProperty`, which is the case
  after a match in a file of that name.
* The `matches` object is a JavaScript object: own properties in insertion order and a
  prototype.  The assignment `matches["__proto__"] = []` replaces the prototype instead of
  creating a property, and `for (file in results)` of the report encoders enumerates the
  own keys in the order of JavaScript (array-index keys first, ascending, then the other
  keys in insertion order) and then the indices of the array that a match in a file named
  `__proto__` installed as prototype.
* A regular expression is given by its printed form and by the successive substrings it
  matches in a line.  `grunt.file.read` is taken to return the content of the file, and the
  callbacks are observers: they return and leave the task's variables alone.
-/

namespace GruntSearch

/-! ## JavaScript values used by the task -/

/-- The pieces of a character sequence cut at every line feed: `split("\n")` on characters.
The result is never empty: the empty sequence gives one empty piece. -/
def splitLF : List Char → List (List Char)
  | [] => [[]]
  | c :: cs =>
    if c = '\n' then [] :: splitLF cs
    else
      match splitLF cs with
      | [] => [[c]]
      | l :: ls => (c :: l) :: ls

/-- The array `src.split("\n")`. -/
def splitLines (src : String) : List String :=
  (splitLF src.data).map String.mk

/-- A regular expression object: `toString` is what `re.toString()` prints, `occurrences line`
lists the substrings of `line` matched by the successive matches of the pattern, leftmost
first (empty when the pattern does not match the line). -/
structure RegExp where
  toString : String
  occurrences : String → List String

/-- The result of `line.match(re)`: `none` for `null`, otherwise the non-empty array, given as
its element 0 and the remaining elements.  Element 0 is the first matched substring. -/
def strMatch (line : String) (re : RegExp) : Option (String × List String) :=
  match re.occurrences line with
  | [] => none
  | m :: ms => some (m, ms)

/-- The value of `options.searchString` when it is not `null`: a string or a `RegExp`. -/
inductive SearchString where
  | str (s : String)
  | regExp (re : RegExp)

/-- A user callback (`options.onMatch`, `options.onComplete`), known by a name only. -/
structure Callback where
  name : String
  deriving DecidableEq

/-- The object `{ line: j, match: lineMatches[0] }` pushed for a matching line. -/
structure MatchRecord where
  line : Nat
  matched : String
  deriving DecidableEq

/-- The own properties of a JavaScript object, in insertion order. -/
abbrev Props (α : Type) := List (String × α)

namespace Props

variable {α : Type}

/-- Whether `k` is the name of one of the properties. -/
def has (o : Props α) (k : String) : Bool :=
  o.any fun e => e.1 == k

/-- The value of the property `k`, `none` when there is none. -/
def get (o : Props α) (k : String) : Option α :=
  match o with
  | [] => none
  | (k1, v) :: rest => if k1 = k then some v else get rest k

/-- The properties after `k` was given the value `v`: an existing property keeps its place,
a new one goes last. -/
def set (o : Props α) (k : String) (v : α) : Props α :=
  match o with
  | [] => [(k, v)]
  | (k1, v1) :: rest => if k1 = k then (k1, v) :: rest else (k1, v1) :: set rest k v

/-- The names of the properties in insertion order. -/
def keys (o : Props α) : List String :=
  o.map Prod.fst

end Props

/-- A JavaScript object used as a dictionary of arrays: its own properties `own`, and its
prototype, `none` for `Object.prototype` and `some a` for the array `a` that an assignment to
`__proto__` installed. -/
structure JsObject (α : Type) where
  own : Props α
  proto : Option α
  deriving DecidableEq

namespace JsObject

variable {α : Type}

/-- The object `{}`. -/
def empty : JsObject α :=
  { own := [], proto := none }

/-- The own keys in insertion order. -/
def keys (o : JsObject α) : List String :=
  Props.keys o.own

/-- The call `o.hasOwnProperty(k)`.  When `o` has an own property named `hasOwnProperty` the
name denotes the array stored there and the call raises a `TypeError`: `none`.  Otherwise the
method of `Object.prototype` is found and tells whether `k` is an own property. -/
def hasOwnProperty (o : JsObject α) (k : String) : Option Bool :=
  if Props.has o.own "hasOwnProperty" then none else some (Props.has o.own k)

/-- The assignment `o[k] = v` of an array `v`.  An own property is updated; otherwise the name
`__proto__` reaches the setter of `Object.prototype`, which makes `v` the prototype of `o`
and creates no property; any other name becomes a new own property. -/
def set (o : JsObject α) (k : String) (v : α) : JsObject α :=
  if Props.has o.own k then { o with own := Props.set o.own k v }
  else if k = "__proto__" then { o with proto := some v }
  else { o with own := Props.set o.own k v }

/-- The array read by `o[k]` when `k` is an own property or is `__proto__` with an array as
prototype; `none` stands for the other values, which are no arrays. -/
def get (o : JsObject α) (k : String) : Option α :=
  match Props.get o.own k with
  | some v => some v
  | none => if k = "__proto__" then o.proto else none

end JsObject

/-- The statement `matches[file].push(r)`: the array read by `matches[file]` grows by `r`
(the task only executes it when `matches[file]` is an array). -/
def pushRecord (o : JsObject (List MatchRecord)) (file : String) (r : MatchRecord) :
    JsObject (List MatchRecord) :=
  match JsObject.get o file with
  | some arr => JsObject.set o file (arr ++ [r])
  | none => o

/-- The value of a sequence of decimal digits, `none` when a character is not a digit. -/
def digitsValue : List Char → Option Nat
  | [] => none
  | cs => cs.foldl (fun acc c =>
      match acc with
      | none => none
      | some n => if c.isDigit then some (n * 10 + (c.toNat - 48)) else none) (some 0)

/-- The index denoted by a property key that is an array index: the canonical decimal form of
a number below `2^32 - 1`. -/
def arrayIndex (k : String) : Option Nat :=
  match digitsValue k.data with
  | none => none
  | some n => if n < 4294967295 ∧ toString n = k then some n else none

/-- The indices of the prototype that `for (var file in o)` visits after the own keys: the
indices of the array installed as prototype, those that are own keys left out. -/
def inheritedKeys (o : JsObject (List MatchRecord)) : List String :=
  match o.proto with
  | none => []
  | some arr =>
    ((List.range arr.length).map fun i => toString i).filter
      fun k => !(JsObject.keys o).contains k

/-- The keys visited by `for (var file in o)`: the own keys, array-index keys in ascending
order and then the remaining keys in insertion order, followed by the inherited indices. -/
def forInKeys (o : JsObject (List MatchRecord)) : List String :=
  (((JsObject.keys o).filterMap arrayIndex).insertionSort (· ≤ ·)).map toString
    ++ (JsObject.keys o).filter (fun k => (arrayIndex k).isNone)
    ++ inheritedKeys o

/-- The UTC fields of a `Date` object, as the getters of the source return them
(`getUTCMonth` counts from 0). -/
structure JsDate where
  getUTCFullYear : Int
  getUTCMonth : Nat
  getUTCDate : Nat
  getUTCHours : Nat
  getUTCMinutes : Nat
  getUTCSeconds : Nat

/-! ## Options, environment and effects -/

/-- The merged options of the task (`this.options(...)`). -/
structure Options where
  searchString : Option SearchString
  logFile : Option String
  logFormat : String
  failOnMatch : Bool
  outputExaminedFiles : Bool
  onComplete : Option Callback
  onMatch : Option Callback

/-- What the task asks of its surroundings: the file system seen through `grunt.file`, the
clock read by `new Date()`, and the constructor `new RegExp(s, "g")`, whose answer `none`
stands for the `SyntaxError` raised on an ill-formed pattern. -/
structure Env where
  isDir : String → Bool
  fileExists : String → Bool
  read : String → String
  now : JsDate
  newRegExp : String → Option RegExp

/-- The observable actions of the task. -/
inductive Effect where
  /-- The call `grunt.file.isDir(filepath)`. -/
  | isDir (filepath : String)
  /-- The call `grunt.file.exists(filepath)`. -/
  | fileExists (filepath : String)
  /-- The call `grunt.file.read(file)`. -/
  | read (file : String)
  /-- The call `grunt.log.warn(msg)`. -/
  | logWarn (msg : String)
  /-- The call `grunt.log.error(a, b)`. -/
  | logError (a b : String)
  /-- The call `grunt.file.write(logFile, content)`. -/
  | fileWrite (logFile : Option String) (content : String)
  /-- The call `grunt.log.writeln(msg)`. -/
  | logWriteln (msg : String)
  /-- The call `options.onMatch({file, line, match})`. -/
  | onMatch (cb : Callback) (file : String) (line : Nat) (matched : String)
  /-- The call `options.onComplete({numMatches, matches})`. -/
  | onComplete (cb : Callback) (numMatches : Nat) (results : JsObject (List MatchRecord))
  /-- The call `grunt.fail.fatal(msg)`. -/
  | failFatal (msg : String)
  /-- The exception `error` leaves the task function. -/
  | thrown (error : String)
  deriving DecidableEq

/-! ## Helpers of the source -/

/-- The function `_cleanStr`: `str.replace(/"/g, "\\\"")`. -/
def cleanStr (str : String) : String :=
  String.mk (str.data.flatMap fun c => if c = '"' then ['\\', '"'] else [c])

/-- The inner function `pad` of `_getISODateString`. -/
def pad (n : Nat) : String :=
  if n < 10 then "0" ++ toString n else toString n

/-- The function `_getISODateString`, on the date returned by `new Date()`. -/
def getISODateString (d : JsDate) : String :=
  toString d.getUTCFullYear ++ "-"
    ++ pad (d.getUTCMonth + 1) ++ "-"
    ++ pad d.getUTCDate ++ " "
    ++ pad d.getUTCHours ++ ":"
    ++ pad d.getUTCMinutes ++ ":"
    ++ pad d.getUTCSeconds

/-- The elements `results[file][i]`, `i < results[file].length`, that the encoders visit for
a key `file` of the enumeration: the array stored under an own key, and nothing for an
inherited index, whose value is a record and has no `length`. -/
def resultsOf (results : JsObject (List MatchRecord)) (file : String) : List MatchRecord :=
  (Props.get results.own file).getD []

/-! ## Validation -/

/-- The array `optionErrors` built by `_validateOptions`. -/
def optionErrors (options : Options) : List String :=
  (if options.searchString.isNone then ["Missing options.searchString value."] else [])
    ++ (if options.logFormat ≠ "console" ∧ options.logFile.isNone
        then ["Missing options.logFile value."] else [])

/-- The function `_validateOptions`: its return value and the errors it logs. -/
def validateOptions (options : Options) : Bool × List Effect :=
  ((optionErrors options).length == 0,
   (optionErrors options).map fun e => Effect.logError "Error: " e)

/-! ## Report encoders -/

/-- The function `_getJSONLogFormat`. -/
def getJSONLogFormat (env : Env) (options : Options) (filePaths : List String)
    (results : JsObject (List MatchRecord)) (numResults : Nat) : String :=
  let content := "\x7b\n\t\"numResults\": " ++ toString numResults ++ ",\n"
    ++ "\t\"creationDate\": \"" ++ getISODateString env.now ++ "\",\n"
    ++ "\t\"results\": \x7b\n"
  let group := (forInKeys results).map fun file =>
    let groupStr := "\t\t\"" ++ file ++ "\": [\n"
    let matchGroup := (resultsOf results file).map fun r =>
      "\t\t\t\x7b\n"
        ++ "\t\t\t\t\"line\": " ++ toString r.line ++ ",\n"
        ++ "\t\t\t\t\"match\": " ++ "\"" ++ cleanStr r.matched ++ "\""
        ++ "\n\t\t\t\x7d"
    let groupStr := groupStr ++ (String.intercalate ",\n" matchGroup ++ "\n")
    groupStr ++ "\t\t]"
  let content := content ++ String.intercalate ",\n" group
  let content := content ++ "\n\t\x7d"
  let content :=
    if options.outputExaminedFiles then
      let content := content ++ ",\n\t\"examinedFiles\": [\n"
      let files := filePaths.map fun p => "\t\t\"" ++ cleanStr p ++ "\""
      let content := content ++ String.intercalate ",\n" files
      content ++ "\n\t]"
    else content
  content ++ "\n\x7d"

/-- The function `_getXMLLogFormat`. -/
def getXMLLogFormat (env : Env) (options : Options) (filePaths : List String)
    (results : JsObject (List MatchRecord)) (numResults : Nat) : String :=
  let content := "<?xml version=\"1.0\"?>\n"
    ++ "<search>\n"
    ++ "\t<numResults>" ++ toString numResults ++ "</numResults>\n"
    ++ "\t<creationDate>" ++ getISODateString env.now ++ "</creationDate>\n"
    ++ "\t<results>"
  let matchGroup := (forInKeys results).foldl (fun matchGroup file =>
    (resultsOf results file).foldl (fun matchGroup r =>
      matchGroup ++ ("\n\t\t<result>\n"
        ++ "\t\t\t<file>" ++ file ++ "</file>\n"
        ++ "\t\t\t<line>" ++ toString r.line ++ "</line>\n"
        ++ "\t\t\t<match>" ++ r.matched ++ "</match>\n"
        ++ "\t\t</result>")) matchGroup) ""
  let content := content ++ (matchGroup ++ "\n"
    ++ "\t</results>\n")
  let content :=
    if options.outputExaminedFiles then
      let content := content ++ "\t<examinedFiles>\n"
      let content := filePaths.foldl (fun content p =>
        content ++ ("\t\t<file>" ++ p ++ "</file>\n")) content
      content ++ "\t</examinedFiles>\n"
    else content
  content ++ "</search>"

/-- The function `_getTextLogFormat`. -/
def getTextLogFormat (env : Env) (options : Options) (filePaths : List String)
    (results : JsObject (List MatchRecord)) (numResults : Nat) : String :=
  let content := "Num results: " ++ toString numResults ++ "\n"
    ++ "Creation date: " ++ getISODateString env.now ++ "\n"
    ++ "Results:\n"
  let content := (forInKeys results).foldl (fun content file =>
    (resultsOf results file).foldl (fun content r =>
      content ++ ("\tFile: " ++ file ++ "\n"
        ++ "\tLine: " ++ toString r.line ++ "\n"
        ++ "\tMatch: " ++ r.matched ++ "\n\n")) content) content
  if options.outputExaminedFiles then
    let content := content ++ "Examined files:\n"
    filePaths.foldl (fun content p => content ++ ("\t" ++ p ++ "\n")) content
  else content

/-- The string `content` computed at the top of `_generateLogFile`. -/
def logContent (env : Env) (options : Options) (filePaths : List String)
    (results : JsObject (List MatchRecord)) (numResults : Nat) : String :=
  if options.logFormat = "json" then
    getJSONLogFormat env options filePaths results numResults
  else if options.logFormat = "xml" then
    getXMLLogFormat env options filePaths results numResults
  else if options.logFormat = "text" ∨ options.logFormat = "console" then
    getTextLogFormat env options filePaths results numResults
  else ""

/-- The function `_generateLogFile`: the effects it performs. -/
def generateLogFile (env : Env) (options : Options) (filePaths : List String)
    (results : JsObject (List MatchRecord)) (numResults : Nat) : List Effect :=
  let content := logContent env options filePaths results numResults
  if options.logFormat ≠ "console" then
    [Effect.fileWrite options.logFile content]
  else
    [Effect.logWriteln content]

/-! ## The task -/

/-- The variables of the file filter: the array `filePaths` and the effects so far. -/
structure FilterState where
  filePaths : List String
  trace : List Effect

/-- The callback given to `f.src.filter`, run on one path. -/
def filterBody (env : Env) (s : FilterState) (filepath : String) : FilterState :=
  if env.isDir filepath then
    { s with trace := s.trace ++ [Effect.isDir filepath] }
  else if !env.fileExists filepath then
    { s with trace := s.trace ++ [Effect.isDir filepath, Effect.fileExists filepath,
        Effect.logWarn ("Source file \"" ++ filepath ++ "\" not found.")] }
  else
    { filePaths := s.filePaths ++ [filepath],
      trace := s.trace ++ [Effect.isDir filepath, Effect.fileExists filepath] }

/-- The statement `f.src.filter(...)` with `filePaths` initially empty. -/
def filterFiles (env : Env) (src : List String) : FilterState :=
  src.foldl (filterBody env) { filePaths := [], trace := [] }

/-- The variables of the scan loop: `matches`, `numMatches`, the effects so far, and whether
the `TypeError` of line 67 has been raised, which ends the loop. -/
structure ScanState where
  results : JsObject (List MatchRecord)
  numMatches : Nat
  trace : List Effect
  thrown : Bool

/-- The body of the loop over `j`, run on `lines[j-1] = line`. -/
def lineBody (options : Options) (re : RegExp) (file : String) (j : Nat) (line : String)
    (s : ScanState) : ScanState :=
  if s.thrown then s
  else
    match strMatch line re with
    | none => s
    | some (m0, _) =>
      match JsObject.hasOwnProperty s.results file with
      | none => { s with thrown := true }
      | some has =>
        let results := if !has then JsObject.set s.results file [] else s.results
        let results := pushRecord results file { line := j, matched := m0 }
        let numMatches := s.numMatches + 1
        let trace :=
          match options.onMatch with
          | some cb => s.trace ++ [Effect.onMatch cb file j m0]
          | none => s.trace
        { results := results, numMatches := numMatches, trace := trace, thrown := false }

/-- The loop `for (var j=1; j<=lines.length; j++)`, entered with counter `j` and the lines
`lines[j-1], lines[j], ...` still to visit. -/
def lineLoop (options : Options) (re : RegExp) (file : String) :
    Nat → List String → ScanState → ScanState
  | _, [], s => s
  | j, line :: rest, s => lineLoop options re file (j + 1) rest (lineBody options re file j line s)

/-- The body of the loop over `i`, run on `filePaths[i] = file`. -/
def fileBody (env : Env) (options : Options) (re : RegExp) (s : ScanState) (file : String) :
    ScanState :=
  if s.thrown then s
  else
    let src := env.read file
    let lines := splitLines src
    lineLoop options re file 1 lines { s with trace := s.trace ++ [Effect.read file] }

/-- The scan loop `for (var i=0; i<filePaths.length; i++)` with `matches = {}` and
`numMatches = 0`. -/
def scan (env : Env) (options : Options) (re : RegExp) (filePaths : List String) : ScanState :=
  filePaths.foldl (fileBody env options re)
    { results := JsObject.empty, numMatches := 0, trace := [], thrown := false }

/-- The effects of the callback of `this.files.forEach` that follow the scan when it has
raised no exception (lines 86 to 95), for the list `filePaths`, the match count and the
`matches` object: the report, the fatal failure when there are matches and `failOnMatch` is
set, the call of `onComplete` when there is one, and the final count. -/
def afterScan (env : Env) (options : Options) (re : RegExp) (filePaths : List String)
    (results : JsObject (List MatchRecord)) (numMatches : Nat) : List Effect :=
  generateLogFile env options filePaths results numMatches
    ++ (if 0 < numMatches ∧ options.failOnMatch = true then
          [Effect.failFatal ("Matches of " ++ re.toString ++ " found")]
        else [])
    ++ (match options.onComplete with
        | some cb => [Effect.onComplete cb numMatches results]
        | none => [])
    ++ [Effect.logWriteln ("Num matches: " ++ toString numMatches)]

/-- The outcome of the callback of `this.files.forEach` on one file group: the variables
`filePaths`, `matches` and `numMatches`, the effects, and whether an exception was raised. -/
structure GroupRun where
  filePaths : List String
  results : JsObject (List MatchRecord)
  numMatches : Nat
  trace : List Effect
  thrown : Bool

/-- The callback of `this.files.forEach`, run on the file group with sources `src`. -/
def searchGroup (env : Env) (options : Options) (re : RegExp) (src : List String) : GroupRun :=
  let fs := filterFiles env src
  let filePaths := fs.filePaths
  let sc := scan env options re filePaths
  if sc.thrown then
    { filePaths := filePaths, results := sc.results, numMatches := sc.numMatches,
      trace := fs.trace ++ sc.trace ++ [Effect.thrown "TypeError"], thrown := true }
  else
    { filePaths := filePaths, results := sc.results, numMatches := sc.numMatches,
      trace := fs.trace ++ sc.trace
        ++ afterScan env options re filePaths sc.results sc.numMatches,
      thrown := false }

/-- The statement `this.files.forEach(...)`: the groups are run in order, and an exception
raised in a group ends the loop. -/
def forEachGroup (env : Env) (options : Options) (re : RegExp) :
    List (List String) → List Effect
  | [] => []
  | src :: rest =>
    let r := searchGroup env options re src
    if r.thrown then r.trace else r.trace ++ forEachGroup env options re rest

/-- The regular expression used by the scan (lines 32 to 34): `options.searchString` itself
when it is a `RegExp`, `new RegExp(options.searchString, "g")` otherwise; `none` when the
constructor raises a `SyntaxError`. -/
def toRegExp (env : Env) : SearchString → Option RegExp
  | SearchString.regExp re => some re
  | SearchString.str s => env.newRegExp s

/-- The task function registered by `grunt.registerMultiTask("search", ...)`, run with the
merged `options` on the file groups `files` (each given by its `src` list): the effects it
performs.  Past the validation guard `options.searchString` is not `null`. -/
def searchTask (env : Env) (options : Options) (files : List (List String)) : List Effect :=
  let v := validateOptions options
  if !v.1 then v.2
  else
    match options.searchString with
    | none => v.2
    | some ss =>
      match toRegExp env ss with
      | none => v.2 ++ [Effect.thrown "SyntaxError"]
      | some re => v.2 ++ forEachGroup env options re files

/-! ## A literal pattern, for concrete runs -/

/-- The successive occurrences of the character sequence `pat` in a line, scanned from the
left without overlap, as a global regular expression for this text finds them.
The first argument counts the characters still covered by the last occurrence. -/
def literalOcc (pat : List Char) : Nat → List Char → List (List Char)
  | _, [] => if pat = [] then [[]] else []
  | skip + 1, _ :: cs => literalOcc pat skip cs
  | 0, c :: cs =>
    if pat <+: c :: cs then pat :: literalOcc pat (pat.length - 1) cs
    else literalOcc pat 0 cs

/-- The characters with a special meaning in a pattern. -/
def isSpecialChar (c : Char) : Bool :=
  c = '\\' || c = '^' || c = '$' || c = '.' || c = '*' || c = '+' || c = '?' || c = '('
    || c = ')' || c = '[' || c = ']' || c = '\x7b' || c = '\x7d' || c = '|' || c = '/'

/-- The pattern source that matches the text `s` and nothing else: every special character
is preceded by a backslash, and the empty text gives `(?:)`. -/
def literalSource (s : String) : String :=
  if s = "" then "(?:)"
  else String.mk (s.data.flatMap fun c => if isSpecialChar c then ['\\', c] else [c])

/-- The global regular expression that matches the occurrences of the text `s`: its source is
`literalSource s`, so for a text `s` without special characters it is `new RegExp(s, "g")`. -/
def literalRegExp (s : String) : RegExp :=
  { toString := "/" ++ literalSource s ++ "/g",
    occurrences := fun line => (literalOcc s.data 0 line.data).map String.mk }

/-- A pattern of letters, digits and blanks only. -/
def isPlainPattern (s : String) : Bool :=
  s.data.all fun c => c.isAlphanum || c = ' '

/-- The constructor `new RegExp(s, "g")` on the patterns of the scenarios: a pattern of
letters, digits and blanks gives the expression that matches this text, and the pattern `(`,
whose group is not closed, is rejected.  The scenarios use no other pattern; one with another
character is answered like `(`. -/
def scenarioRegExp (s : String) : Option RegExp :=
  if isPlainPattern s then some (literalRegExp s) else none

/-! ## The scenario of the specification -/

/-- A file system with two regular files: `A` holds the lines `TODO: fix`, `ok`, `TODO again`,
and `B` holds two lines without `TODO`; `missing` does not exist and `dir` is a directory. -/
def todoEnv : Env :=
  { isDir := fun p => p = "dir",
    fileExists := fun p => p = "A" ∨ p = "B" ∨ p = "dir",
    read := fun p => if p = "A" then "TODO: fix\nok\nTODO again" else "ok\nnothing here",
    now := { getUTCFullYear := 2013, getUTCMonth := 4, getUTCDate := 9, getUTCHours := 7,
             getUTCMinutes := 5, getUTCSeconds := 3 },
    newRegExp := scenarioRegExp }

/-- The options of the scenario: the pattern `TODO`, a JSON report written to `out.json`, the
other options at their defaults. -/
def todoOptions : Options :=
  { searchString := some (SearchString.str "TODO"),
    logFile := some "out.json",
    logFormat := "json",
    failOnMatch := false,
    outputExaminedFiles := false,
    onComplete := none,
    onMatch := none }

/-- The options of the scenario with `failOnMatch` set and a callback `onComplete`. -/
def failingOptions : Options :=
  { todoOptions with failOnMatch := true, onComplete := some { name := "done" } }

/-! ## Reading a trace and a scan result -/

/-- The records that the specification asks for the lines `lines`, numbered from `j`: one
record per line on which the pattern matches, holding the number of the line and the first
matched substring. -/
def matchingRecords (re : RegExp) : Nat → List String → List MatchRecord
  | _, [] => []
  | j, line :: rest =>
    match re.occurrences line with
    | [] => matchingRecords re (j + 1) rest
    | m :: _ => { line := j, matched := m } :: matchingRecords re (j + 1) rest

/-- The number of lines of a file content on which the pattern matches at least once. -/
def matchingLineCount (re : RegExp) (content : String) : Nat :=
  ((splitLines content).filter fun line => !(re.occurrences line).isEmpty).length

/-- The own properties `o` after the records `rs` were pushed under `file`, the property
being created on the first push. -/
def appendRecords (o : Props (List MatchRecord)) (file : String) (rs : List MatchRecord) :
    Props (List MatchRecord) :=
  if rs = [] then o else Props.set o file ((Props.get o file).getD [] ++ rs)

/-- The messages of the `grunt.log.warn` calls of a trace, in order. -/
def warnings (t : List Effect) : List String :=
  t.filterMap fun e => match e with
    | Effect.logWarn msg => some msg
    | _ => none

/-- The `grunt.file.write` calls of a trace, in order. -/
def fileWrites (t : List Effect) : List (Option String × String) :=
  t.filterMap fun e => match e with
    | Effect.fileWrite logFile content => some (logFile, content)
    | _ => none

/-- The messages of the `grunt.log.writeln` calls of a trace, in order. -/
def logWritelns (t : List Effect) : List String :=
  t.filterMap fun e => match e with
    | Effect.logWriteln msg => some msg
    | _ => none

/-- The `options.onMatch` calls of a trace, in order: callback, file and record passed. -/
def onMatchCalls (t : List Effect) : List (Callback × String × MatchRecord) :=
  t.filterMap fun e => match e with
    | Effect.onMatch cb file line matched => some (cb, file, { line := line, matched := matched })
    | _ => none

/-- The `options.onComplete` calls of a trace, in order. -/
def onCompleteCalls (t : List Effect) : List (Callback × Nat × JsObject (List MatchRecord)) :=
  t.filterMap fun e => match e with
    | Effect.onComplete cb numMatches results => some (cb, numMatches, results)
    | _ => none

/-- The messages of the `grunt.fail.fatal` calls of a trace, in order. -/
def fatals (t : List Effect) : List String :=
  t.filterMap fun e => match e with
    | Effect.failFatal msg => some msg
    | _ => none

/-- The effects that query or read the file system. -/
def Effect.isFileQuery : Effect → Bool
  | Effect.isDir _ => true
  | Effect.fileExists _ => true
  | Effect.read _ => true
  | _ => false

/-- The records of the matching lines of `file`, numbered from 1. -/
def fileRecords (env : Env) (re : RegExp) (file : String) : List MatchRecord :=
  matchingRecords re 1 (splitLines (env.read file))

/-- The `options.onMatch` calls made for the records `rs` of `file`. -/
def onMatchEffects (options : Options) (file : String) (rs : List MatchRecord) : List Effect :=
  match options.onMatch with
  | some cb => rs.map fun r => Effect.onMatch cb file r.line r.matched
  | none => []

/-- The paths of `src` kept by the file filter: those that are not directories and exist. -/
def keptPaths (env : Env) (src : List String) : List String :=
  src.filter fun p => !env.isDir p && env.fileExists p

/-- The pieces `ls` put together again with a line feed between consecutive pieces. -/
def joinLF : List (List Char) → List Char
  | [] => []
  | [l] => l
  | l :: l2 :: ls => l ++ '\n' :: joinLF (l2 :: ls)

/-- The character sequence `cs` without the backslash that stands right before a double quote. -/
def dropQuoteEscapes : List Char → List Char
  | [] => []
  | [c] => [c]
  | c :: d :: cs =>
    if c = '\\' ∧ d = '"' then d :: dropQuoteEscapes cs
    else c :: dropQuoteEscapes (d :: cs)

/-- The options of the scenario with the ill-formed pattern `(`, a callback `onComplete` and
a callback `onMatch`. -/
def illFormedOptions : Options :=
  { todoOptions with searchString := some (SearchString.str "("),
                     onComplete := some { name := "done" },
                     onMatch := some { name := "notify" } }

/-- The options of the scenario with both callbacks. -/
def callbackOptions : Options :=
  { todoOptions with onComplete := some { name := "done" },
                     onMatch := some { name := "notify" } }

/-- The options of the scenario with `failOnMatch` set and both callbacks. -/
def failingCallbackOptions : Options :=
  { todoOptions with failOnMatch := true, onComplete := some { name := "done" },
                     onMatch := some { name := "notify" } }

/-- The options of the scenario with a format name that the task does not know. -/
def yamlOptions : Options :=
  { todoOptions with logFormat := "yaml" }

/-- The options with the unknown format name and the ill-formed pattern `(`. -/
def illFormedYamlOptions : Options :=
  { yamlOptions with searchString := some (SearchString.str "(") }

/-- The effects of the scan loop: reads and calls of `onMatch`. -/
def Effect.isScanEffect : Effect → Bool
  | Effect.read _ => true
  | Effect.onMatch _ _ _ _ => true
  | _ => false

/-- The effects of the file filter: queries of the file system and warnings. -/
def Effect.isFilterEffect : Effect → Bool
  | Effect.isDir _ => true
  | Effect.fileExists _ => true
  | Effect.logWarn _ => true
  | _ => false

/-- The pairs of a file and one of its records in the order in which the encoders visit them:
files as `for (var file in results)` enumerates them, records of a file by index. -/
def renderedEntries (results : JsObject (List MatchRecord)) : List (String × MatchRecord) :=
  (forInKeys results).flatMap fun file => (resultsOf results file).map fun r => (file, r)

/-- The text pushed on `matchGroup` by `_getJSONLogFormat` for one record. -/
def jsonRecord (r : MatchRecord) : String :=
  "\t\t\t\x7b\n"
    ++ "\t\t\t\t\"line\": " ++ toString r.line ++ ",\n"
    ++ "\t\t\t\t\"match\": " ++ "\"" ++ cleanStr r.matched ++ "\""
    ++ "\n\t\t\t\x7d"

/-- The text pushed on `group` by `_getJSONLogFormat` for one file. -/
def jsonGroup (results : JsObject (List MatchRecord)) (file : String) : String :=
  "\t\t\"" ++ file ++ "\": [\n"
    ++ (String.intercalate ",\n" ((resultsOf results file).map jsonRecord) ++ "\n")
    ++ "\t\t]"

/-- The text added by `_getJSONLogFormat` when `outputExaminedFiles` is set. -/
def jsonExaminedFiles (filePaths : List String) : String :=
  ",\n\t\"examinedFiles\": [\n"
    ++ String.intercalate ",\n" (filePaths.map fun p => "\t\t\"" ++ cleanStr p ++ "\"")
    ++ "\n\t]"

/-- The text added to `matchGroup` by `_getXMLLogFormat` for one record of a file. -/
def xmlResult (file : String) (r : MatchRecord) : String :=
  "\n\t\t<result>\n"
    ++ "\t\t\t<file>" ++ file ++ "</file>\n"
    ++ "\t\t\t<line>" ++ toString r.line ++ "</line>\n"
    ++ "\t\t\t<match>" ++ r.matched ++ "</match>\n"
    ++ "\t\t</result>"

/-- The text added by `_getXMLLogFormat` when `outputExaminedFiles` is set. -/
def xmlExaminedFiles (filePaths : List String) : String :=
  "\t<examinedFiles>\n"
    ++ String.join (filePaths.map fun p => "\t\t<file>" ++ p ++ "</file>\n")
    ++ "\t</examinedFiles>\n"

/-- The text added to `content` by `_getTextLogFormat` for one record of a file. -/
def textEntry (file : String) (r : MatchRecord) : String :=
  "\tFile: " ++ file ++ "\n"
    ++ "\tLine: " ++ toString r.line ++ "\n"
    ++ "\tMatch: " ++ r.matched ++ "\n\n"

/-- The text added by `_getTextLogFormat` when `outputExaminedFiles` is set. -/
def textExaminedFiles (filePaths : List String) : String :=
  "Examined files:\n" ++ String.join (filePaths.map fun p => "\t" ++ p ++ "\n")

/-- The pairs of a file and one of its records as the own properties of the `matches` object
store them: files in insertion order, records of a file by index. -/
def storedEntries (results : JsObject (List MatchRecord)) : List (String × MatchRecord) :=
  results.own.flatMap fun e => e.2.map fun r => (e.1, r)

/-- The elements of a list in the order of their first occurrence, each one once. -/
def firstOccurrences : List String → List String
  | [] => []
  | f :: rest => f :: (firstOccurrences rest).filter fun g => g ≠ f

/-- The scanned files with at least one matching line, in the order in which they first
receive a match: `filePaths` order, each file once. -/
def matchedFiles (env : Env) (re : RegExp) (filePaths : List String) : List String :=
  firstOccurrences (filePaths.filter fun f => !(fileRecords env re f).isEmpty)

/-- A file system in which every path is a regular file with the single line `TODO here`. -/
def numberedEnv : Env :=
  { todoEnv with isDir := fun _ => false, fileExists := fun _ => true,
                 read := fun _ => "TODO here" }

/-- A file system in which every path is a regular file with the three lines `TODO and TODO`,
`ok` and `TODO again`. -/
def threeLineEnv : Env :=
  { todoEnv with isDir := fun _ => false, fileExists := fun _ => true,
                 read := fun _ => "TODO and TODO\nok\nTODO again" }

/-- A file system in which every path is a regular file with the single line `cd C:\`. -/
def backslashEnv : Env :=
  { todoEnv with isDir := fun _ => false, fileExists := fun _ => true,
                 read := fun _ => "cd C:\\" }

/-! ## Well-formed JSON texts (RFC 8259), for the JSON report -/

/-- The characters that JSON allows as white space. -/
def jsonWhite (c : Char) : Bool :=
  c = ' ' || c = '\n' || c = '\t' || c = '\r'

/-- The characters left after leading JSON white space. -/
def skipWhite : List Char → List Char
  | [] => []
  | c :: cs => if jsonWhite c then skipWhite cs else c :: cs

/-- The characters left after leading decimal digits. -/
def skipDigits : List Char → List Char
  | [] => []
  | c :: cs => if c.isDigit then skipDigits cs else c :: cs

/-- A hexadecimal digit. -/
def isHexDigit (c : Char) : Bool :=
  c.isDigit || (97 ≤ c.toNat && c.toNat ≤ 102) || (65 ≤ c.toNat && c.toNat ≤ 70)

/-- The characters left after a JSON string whose opening quote has been read, `none` when the
string is not closed or holds a raw control character or a wrong escape.  The first argument
bounds the number of characters read. -/
def jsonStringRest : Nat → List Char → Option (List Char)
  | 0, _ => none
  | _, [] => none
  | fuel + 1, c :: cs =>
    if c = '"' then some cs
    else if c = '\\' then
      match cs with
      | [] => none
      | e :: cs2 =>
        if e = 'u' then
          match cs2 with
          | h1 :: h2 :: h3 :: h4 :: cs3 =>
            if isHexDigit h1 && isHexDigit h2 && isHexDigit h3 && isHexDigit h4
            then jsonStringRest fuel cs3 else none
          | _ => none
        else if e = '"' || e = '\\' || e = '/' || e = 'b' || e = 'f' || e = 'n' || e = 'r'
            || e = 't'
        then jsonStringRest fuel cs2 else none
    else if c.toNat < 32 then none
    else jsonStringRest fuel cs

/-- The characters left after the exponent part of a JSON number, if there is one. -/
def jsonExponentRest (cs : List Char) : Option (List Char) :=
  match cs with
  | [] => some []
  | e :: rest =>
    if e = 'e' || e = 'E' then
      let rest2 :=
        match rest with
        | [] => []
        | s :: rest3 => if s = '+' || s = '-' then rest3 else s :: rest3
      match rest2 with
      | [] => none
      | d :: rest4 => if d.isDigit then some (skipDigits rest4) else none
    else some (e :: rest)

/-- The characters left after the fraction and exponent parts of a JSON number. -/
def jsonFractionRest (cs : List Char) : Option (List Char) :=
  match cs with
  | [] => some []
  | p :: rest =>
    if p = '.' then
      match rest with
      | [] => none
      | d :: rest2 => if d.isDigit then jsonExponentRest (skipDigits rest2) else none
    else jsonExponentRest (p :: rest)

/-- The characters left after a JSON number, `none` when `cs` does not start with one. -/
def jsonNumberRest (cs : List Char) : Option (List Char) :=
  let cs1 :=
    match cs with
    | [] => []
    | m :: rest => if m = '-' then rest else m :: rest
  match cs1 with
  | [] => none
  | d :: rest => if d = '0' then jsonFractionRest rest
    else if d.isDigit then jsonFractionRest (skipDigits rest) else none

/-- What is to be read next: a value, the members of an object after its opening brace, or
the elements of an array after its opening bracket. -/
inductive JsonGoal where
  | value
  | members
  | elements

/-- The characters left after reading what the goal asks for, `none` when the text does not
start with it.  The first argument bounds the nesting and the number of members read. -/
def jsonRest : Nat → JsonGoal → List Char → Option (List Char)
  | 0, _, _ => none
  | fuel + 1, JsonGoal.value, cs =>
    match skipWhite cs with
    | [] => none
    | c :: rest =>
      if c = '"' then jsonStringRest (rest.length + 1) rest
      else if c = '\x7b' then
        match skipWhite rest with
        | [] => none
        | d :: rest2 =>
          if d = '\x7d' then some rest2 else jsonRest fuel JsonGoal.members (d :: rest2)
      else if c = '[' then
        match skipWhite rest with
        | [] => none
        | d :: rest2 =>
          if d = ']' then some rest2 else jsonRest fuel JsonGoal.elements (d :: rest2)
      else if "true".data <+: c :: rest then some ((c :: rest).drop 4)
      else if "false".data <+: c :: rest then some ((c :: rest).drop 5)
      else if "null".data <+: c :: rest then some ((c :: rest).drop 4)
      else jsonNumberRest (c :: rest)
  | fuel + 1, JsonGoal.members, cs =>
    match skipWhite cs with
    | [] => none
    | c :: rest =>
      if c = '"' then
        match jsonStringRest (rest.length + 1) rest with
        | none => none
        | some r1 =>
          match skipWhite r1 with
          | [] => none
          | d :: r2 =>
            if d = ':' then
              match jsonRest fuel JsonGoal.value r2 with
              | none => none
              | some r3 =>
                match skipWhite r3 with
                | [] => none
                | e :: r4 =>
                  if e = '\x7d' then some r4
                  else if e = ',' then jsonRest fuel JsonGoal.members r4
                  else none
            else none
      else none
  | fuel + 1, JsonGoal.elements, cs =>
    match jsonRest fuel JsonGoal.value cs with
    | none => none
    | some r1 =>
      match skipWhite r1 with
      | [] => none
      | e :: r2 =>
        if e = ']' then some r2
        else if e = ',' then jsonRest fuel JsonGoal.elements r2
        else none

/-- A text is a well-formed JSON document when it is one JSON value between optional white
space.  Reading a value uses at least one character for every level of nesting and every
member, so the bound `length + 1` is never reached. -/
def jsonWellFormed (s : String) : Bool :=
  match jsonRest (s.length + 1) JsonGoal.value s.data with
  | some rest => (skipWhite rest).isEmpty
  | none => false

/-! ## Properties of the dictionary operations -/

theorem Props.get_set_self {α : Type} (o : Props α) (k : String) (v : α) :
    Props.get (Props.set o k v) k = some v := by
  induction o with
  | nil => simp [Props.set, Props.get]
  | cons e rest ih =>
    obtain ⟨k1, v1⟩ := e
    by_cases h : k1 = k
    · simp [Props.set, Props.get, h]
    · simp [Props.set, Props.get, h, ih]

theorem Props.get_set_ne {α : Type} (o : Props α) (k k2 : String) (v : α) (h : k ≠ k2) :
    Props.get (Props.set o k v) k2 = Props.get o k2 := by
  induction o with
  | nil => simp [Props.set, Props.get, h]
  | cons e rest ih =>
    obtain ⟨k1, v1⟩ := e
    by_cases h1 : k1 = k
    · subst h1
      simp [Props.set, Props.get, h]
    · by_cases h2 : k1 = k2
      · subst h2
        simp [Props.set, Props.get, h1]
      · simp [Props.set, Props.get, h1, h2, ih]

theorem Props.set_set {α : Type} (o : Props α) (k : String) (v w : α) :
    Props.set (Props.set o k v) k w = Props.set o k w := by
  induction o with
  | nil => simp [Props.set]
  | cons e rest ih =>
    obtain ⟨k1, v1⟩ := e
    by_cases h : k1 = k
    · simp [Props.set, h]
    · simp [Props.set, h, ih]

theorem Props.has_eq_isSome {α : Type} (o : Props α) (k : String) :
    Props.has o k = (Props.get o k).isSome := by
  induction o with
  | nil => simp [Props.has, Props.get]
  | cons e rest ih =>
    obtain ⟨k1, v1⟩ := e
    by_cases h : k1 = k
    · simp [Props.has, Props.get, h]
    · have ih2 : (List.any rest fun e => e.1 == k) = (Props.get rest k).isSome := ih
      simp [Props.has, Props.get, h, ih2]

theorem Props.has_set_ne {α : Type} (o : Props α) (k k2 : String) (v : α) (h : k ≠ k2) :
    Props.has (Props.set o k v) k2 = Props.has o k2 := by
  rw [Props.has_eq_isSome, Props.has_eq_isSome, Props.get_set_ne o k k2 v h]

theorem Props.has_iff_mem_keys {α : Type} (o : Props α) (k : String) :
    Props.has o k = true ↔ k ∈ Props.keys o := by
  simp only [Props.has, Props.keys, List.any_eq_true, List.mem_map, beq_iff_eq]

theorem Props.get_of_not_mem_keys {α : Type} (o : Props α) (k : String)
    (h : k ∉ Props.keys o) : Props.get o k = none := by
  have h1 : Props.has o k = false := by
    cases hh : Props.has o k with
    | false => rfl
    | true => exact absurd ((Props.has_iff_mem_keys o k).mp hh) h
  rw [Props.has_eq_isSome] at h1
  cases hg : Props.get o k with
  | none => rfl
  | some v => simp [hg] at h1

/-! ## The scan loop, line by line -/

theorem lineBody_none (options : Options) (re : RegExp) (file : String) (j : Nat)
    (line : String) (s : ScanState) (h : re.occurrences line = []) :
    lineBody options re file j line s = s := by
  simp [lineBody, strMatch, h]

theorem lineBody_thrown (options : Options) (re : RegExp) (file : String) (j : Nat)
    (line : String) (s : ScanState) (h : s.thrown = true) :
    lineBody options re file j line s = s := by
  simp [lineBody, h]

theorem lineLoop_thrown (options : Options) (re : RegExp) (file : String) (j : Nat)
    (lines : List String) (s : ScanState) (h : s.thrown = true) :
    lineLoop options re file j lines s = s := by
  induction lines generalizing j with
  | nil => rfl
  | cons line rest ih => rw [lineLoop, lineBody_thrown _ _ _ _ _ _ h, ih]

theorem fileBody_thrown (env : Env) (options : Options) (re : RegExp) (s : ScanState)
    (file : String) (h : s.thrown = true) : fileBody env options re s file = s := by
  simp [fileBody, h]

theorem scan_fold_thrown (env : Env) (options : Options) (re : RegExp)
    (filePaths : List String) (s : ScanState) (h : s.thrown = true) :
    filePaths.foldl (fileBody env options re) s = s := by
  induction filePaths with
  | nil => rfl
  | cons f rest ih => rw [List.foldl_cons, fileBody_thrown _ _ _ _ _ h, ih]

theorem lineBody_raise (options : Options) (re : RegExp) (file : String) (j : Nat)
    (line : String) (s : ScanState) (m : String) (ms : List String)
    (h : re.occurrences line = m :: ms) (hs : s.thrown = false)
    (hp : Props.has s.results.own "hasOwnProperty" = true) :
    lineBody options re file j line s = { s with thrown := true } := by
  simp [lineBody, strMatch, h, hs, JsObject.hasOwnProperty, hp]

theorem lineBody_match (options : Options) (re : RegExp) (file : String) (j : Nat)
    (line : String) (s : ScanState) (m : String) (ms : List String)
    (h : re.occurrences line = m :: ms) (hs : s.thrown = false)
    (hp : Props.has s.results.own "hasOwnProperty" = false) :
    lineBody options re file j line s
      = { results := pushRecord
            (if !Props.has s.results.own file then JsObject.set s.results file []
             else s.results) file { line := j, matched := m },
          numMatches := s.numMatches + 1,
          trace := s.trace ++ (match options.onMatch with
            | some cb => [Effect.onMatch cb file j m]
            | none => []),
          thrown := false } := by
  cases hcb : options.onMatch <;>
    simp [lineBody, strMatch, h, hs, JsObject.hasOwnProperty, hp, hcb]

theorem appendRecords_nil (o : Props (List MatchRecord)) (file : String) :
    appendRecords o file [] = o := by
  simp [appendRecords]

theorem appendRecords_append (o : Props (List MatchRecord)) (file : String)
    (a b : List MatchRecord) :
    appendRecords (appendRecords o file a) file b = appendRecords o file (a ++ b) := by
  by_cases ha : a = []
  · simp [appendRecords, ha]
  · by_cases hb : b = []
    · simp [appendRecords, ha, hb]
    · simp [appendRecords, ha, hb, Props.get_set_self, Props.set_set]

theorem pushRecord_guarded (o : JsObject (List MatchRecord)) (file : String) (r : MatchRecord)
    (hf : file ≠ "__proto__") :
    pushRecord (if !Props.has o.own file then JsObject.set o file [] else o) file r
      = { own := appendRecords o.own file [r], proto := o.proto } := by
  cases hh : Props.has o.own file with
  | false =>
    have hg : Props.get o.own file = none := by
      have := Props.has_eq_isSome o.own file
      rw [hh] at this
      cases hg : Props.get o.own file with
      | none => rfl
      | some v => simp [hg] at this
    simp [pushRecord, JsObject.set, JsObject.get, hh, hf, Props.get_set_self,
      Props.has_eq_isSome, Props.set_set, appendRecords, hg]
  | true =>
    have := Props.has_eq_isSome o.own file
    rw [hh] at this
    cases hg : Props.get o.own file with
    | none => simp [hg] at this
    | some arr =>
      simp [pushRecord, JsObject.set, JsObject.get, hh, hg, appendRecords]

theorem matchingRecords_length (re : RegExp) (j : Nat) (lines : List String) :
    (matchingRecords re j lines).length
      = (lines.filter fun line => !(re.occurrences line).isEmpty).length := by
  induction lines generalizing j with
  | nil => simp [matchingRecords]
  | cons line rest ih =>
    cases h : re.occurrences line with
    | nil => simp [matchingRecords, h, ih]
    | cons m ms => simp [matchingRecords, h, ih]

theorem lineLoop_of_not_thrown (options : Options) (re : RegExp) (file : String) (j : Nat)
    (lines : List String) (s : ScanState)
    (h : (lineLoop options re file j lines s).thrown = false) :
    s.thrown = false
    ∧ (lineLoop options re file j lines s).numMatches
        = s.numMatches + (matchingRecords re j lines).length
    ∧ (lineLoop options re file j lines s).trace
        = s.trace ++ onMatchEffects options file (matchingRecords re j lines)
    ∧ (file ≠ "__proto__" →
        (lineLoop options re file j lines s).results
          = { own := appendRecords s.results.own file (matchingRecords re j lines),
              proto := s.results.proto }) := by
  induction lines generalizing j s with
  | nil =>
    refine ⟨h, by simp [lineLoop, matchingRecords], ?_, ?_⟩
    · cases hcb : options.onMatch <;> simp [lineLoop, matchingRecords, onMatchEffects, hcb]
    · intro _
      simp [lineLoop, matchingRecords, appendRecords]
  | cons line rest ih =>
    cases ho : re.occurrences line with
    | nil =>
      rw [lineLoop, lineBody_none _ _ _ _ _ _ ho] at h ⊢
      simpa [matchingRecords, ho] using ih (j + 1) s h
    | cons m ms =>
      cases hs : s.thrown with
      | true =>
        rw [lineLoop_thrown _ _ _ _ _ _ hs] at h
        rw [hs] at h
        exact absurd h (by simp)
      | false =>
        cases hp : Props.has s.results.own "hasOwnProperty" with
        | true =>
          have hr := lineBody_raise options re file j line s m ms ho hs hp
          rw [lineLoop, hr, lineLoop_thrown _ _ _ _ _ _ rfl] at h
          exact absurd h (by simp)
        | false =>
          have hm := lineBody_match options re file j line s m ms ho hs hp
          rw [lineLoop] at h ⊢
          obtain ⟨_, h2, h3, h4⟩ := ih (j + 1) _ h
          rw [hm] at h2 h3 h4 ⊢
          refine ⟨rfl, ?_, ?_, ?_⟩
          · rw [h2]
            simp only [matchingRecords, ho, List.length_cons]
            omega
          · rw [h3]
            cases hcb : options.onMatch <;> simp [matchingRecords, ho, onMatchEffects, hcb]
          · intro hf
            rw [h4 hf]
            simp only [pushRecord_guarded _ _ _ hf, appendRecords_append, matchingRecords, ho,
              List.singleton_append]

theorem fileRecords_length (env : Env) (re : RegExp) (file : String) :
    (fileRecords env re file).length = matchingLineCount re (env.read file) := by
  simp [fileRecords, matchingLineCount, matchingRecords_length]

theorem scan_fold_of_not_thrown (env : Env) (options : Options) (re : RegExp)
    (filePaths : List String) (s : ScanState)
    (h : (filePaths.foldl (fileBody env options re) s).thrown = false) :
    s.thrown = false
    ∧ (filePaths.foldl (fileBody env options re) s).numMatches
        = s.numMatches + (filePaths.map fun f => matchingLineCount re (env.read f)).sum
    ∧ (filePaths.foldl (fileBody env options re) s).trace
        = s.trace ++ filePaths.flatMap (fun f =>
            Effect.read f :: onMatchEffects options f (fileRecords env re f))
    ∧ ("__proto__" ∉ filePaths →
        (filePaths.foldl (fileBody env options re) s).results
          = { own := filePaths.foldl (fun acc f => appendRecords acc f (fileRecords env re f))
                s.results.own,
              proto := s.results.proto }) := by
  induction filePaths generalizing s with
  | nil => exact ⟨h, by simp, by simp, fun _ => rfl⟩
  | cons f rest ih =>
    rw [List.foldl_cons] at h ⊢
    obtain ⟨h1, h2, h3, h4⟩ := ih _ h
    cases hs : s.thrown with
    | true =>
      rw [fileBody_thrown _ _ _ _ _ hs, hs] at h1
      exact absurd h1 (by simp)
    | false =>
      have hfb : fileBody env options re s f
          = lineLoop options re f 1 (splitLines (env.read f))
              { s with trace := s.trace ++ [Effect.read f] } := by
        simp [fileBody, hs]
      rw [hfb] at h1 h2 h3 h4 ⊢
      obtain ⟨_, g2, g3, g4⟩ := lineLoop_of_not_thrown _ _ _ _ _ _ h1
      refine ⟨rfl, ?_, ?_, ?_⟩
      · rw [h2, g2]
        simp only [List.map_cons, List.sum_cons, ← fileRecords_length, fileRecords]
        omega
      · rw [h3, g3]
        simp [fileRecords]
      · intro hmem
        have hf : f ≠ "__proto__" := fun e => hmem (by simp [e])
        have hr : "__proto__" ∉ rest := fun e => hmem (by simp [e])
        rw [h4 hr, g4 hf]
        simp [fileRecords]

theorem scan_of_not_thrown (env : Env) (options : Options) (re : RegExp)
    (filePaths : List String) (h : (scan env options re filePaths).thrown = false) :
    (scan env options re filePaths).numMatches
        = (filePaths.map fun f => matchingLineCount re (env.read f)).sum
    ∧ (scan env options re filePaths).trace
        = filePaths.flatMap (fun f =>
            Effect.read f :: onMatchEffects options f (fileRecords env re f))
    ∧ ("__proto__" ∉ filePaths →
        (scan env options re filePaths).results
          = { own := filePaths.foldl (fun acc f => appendRecords acc f (fileRecords env re f))
                [],
              proto := none }) := by
  obtain ⟨_, h2, h3, h4⟩ := scan_fold_of_not_thrown env options re filePaths _ h
  refine ⟨by simpa [scan] using h2, by simpa [scan] using h3, ?_⟩
  intro hp
  simpa [scan, JsObject.empty] using h4 hp

/-! ## The exception of the scan loop -/

theorem own_has_set_ne (o : JsObject (List MatchRecord)) (file k : String) (v : List MatchRecord)
    (h : file ≠ k) : Props.has (JsObject.set o file v).own k = Props.has o.own k := by
  unfold JsObject.set
  by_cases h1 : Props.has o.own file = true
  · simp only [h1, if_true]
    exact Props.has_set_ne _ _ _ _ h
  · by_cases h2 : file = "__proto__"
    · subst h2
      simp only [h1, if_true, if_false, Bool.false_eq_true]
    · simp only [h1, h2, if_false]
      exact Props.has_set_ne _ _ _ _ h

theorem own_has_pushRecord_ne (o : JsObject (List MatchRecord)) (file k : String) (r : MatchRecord)
    (h : file ≠ k) : Props.has (pushRecord o file r).own k = Props.has o.own k := by
  cases hg : JsObject.get o file with
  | none => simp [pushRecord, hg]
  | some arr =>
    simp only [pushRecord, hg]
    exact own_has_set_ne _ _ _ _ h

theorem lineBody_safe (options : Options) (re : RegExp) (file : String) (j : Nat)
    (line : String) (s : ScanState) (hf : file ≠ "hasOwnProperty")
    (hs : s.thrown = false) (hp : Props.has s.results.own "hasOwnProperty" = false) :
    (lineBody options re file j line s).thrown = false
    ∧ Props.has (lineBody options re file j line s).results.own "hasOwnProperty" = false := by
  cases ho : re.occurrences line with
  | nil =>
    rw [lineBody_none _ _ _ _ _ _ ho]
    exact ⟨hs, hp⟩
  | cons m ms =>
    rw [lineBody_match options re file j line s m ms ho hs hp]
    refine ⟨rfl, ?_⟩
    simp only
    rw [own_has_pushRecord_ne _ _ _ _ hf]
    split
    · rw [own_has_set_ne _ _ _ _ hf]
      exact hp
    · exact hp

theorem lineLoop_safe (options : Options) (re : RegExp) (file : String) (j : Nat)
    (lines : List String) (s : ScanState) (hf : file ≠ "hasOwnProperty")
    (hs : s.thrown = false) (hp : Props.has s.results.own "hasOwnProperty" = false) :
    (lineLoop options re file j lines s).thrown = false
    ∧ Props.has (lineLoop options re file j lines s).results.own "hasOwnProperty" = false := by
  induction lines generalizing j s with
  | nil => exact ⟨hs, hp⟩
  | cons line rest ih =>
    obtain ⟨h1, h2⟩ := lineBody_safe options re file j line s hf hs hp
    exact ih (j + 1) _ h1 h2

theorem scan_fold_safe (env : Env) (options : Options) (re : RegExp)
    (filePaths : List String) (s : ScanState) (hf : "hasOwnProperty" ∉ filePaths)
    (hs : s.thrown = false) (hp : Props.has s.results.own "hasOwnProperty" = false) :
    (filePaths.foldl (fileBody env options re) s).thrown = false := by
  induction filePaths generalizing s with
  | nil => exact hs
  | cons f rest ih =>
    have hne : f ≠ "hasOwnProperty" := fun e => hf (by simp [e])
    have hr : "hasOwnProperty" ∉ rest := fun e => hf (by simp [e])
    have hfb : fileBody env options re s f
        = lineLoop options re f 1 (splitLines (env.read f))
            { s with trace := s.trace ++ [Effect.read f] } := by
      simp [fileBody, hs]
    obtain ⟨h1, h2⟩ := lineLoop_safe options re f 1 (splitLines (env.read f))
      { s with trace := s.trace ++ [Effect.read f] } hne hs hp
    rw [List.foldl_cons, hfb]
    exact ih _ hr h1 h2

theorem scan_thrown_of_no_hasOwnProperty (env : Env) (options : Options) (re : RegExp)
    (filePaths : List String) (hf : "hasOwnProperty" ∉ filePaths) :
    (scan env options re filePaths).thrown = false :=
  scan_fold_safe env options re filePaths _ hf rfl rfl

/-! ## Reading a concatenated trace -/

theorem warnings_append (a b : List Effect) : warnings (a ++ b) = warnings a ++ warnings b := by
  simp [warnings]

theorem fileWrites_append (a b : List Effect) :
    fileWrites (a ++ b) = fileWrites a ++ fileWrites b := by
  simp [fileWrites]

theorem logWritelns_append (a b : List Effect) :
    logWritelns (a ++ b) = logWritelns a ++ logWritelns b := by
  simp [logWritelns]

theorem onMatchCalls_append (a b : List Effect) :
    onMatchCalls (a ++ b) = onMatchCalls a ++ onMatchCalls b := by
  simp [onMatchCalls]

theorem onCompleteCalls_append (a b : List Effect) :
    onCompleteCalls (a ++ b) = onCompleteCalls a ++ onCompleteCalls b := by
  simp [onCompleteCalls]

theorem fatals_append (a b : List Effect) : fatals (a ++ b) = fatals a ++ fatals b := by
  simp [fatals]

theorem filterMap_flatMap_groups {α β γ : Type} (f : β → Option γ) (g : α → List β)
    (l : List α) : (l.flatMap g).filterMap f = l.flatMap fun x => (g x).filterMap f := by
  induction l with
  | nil => rfl
  | cons a rest ih => simp [List.flatMap_cons, List.filterMap_append, ih]

theorem fileWrites_flatMap {α : Type} (g : α → List Effect) (l : List α) :
    fileWrites (l.flatMap g) = l.flatMap fun x => fileWrites (g x) :=
  filterMap_flatMap_groups _ g l

theorem logWritelns_flatMap {α : Type} (g : α → List Effect) (l : List α) :
    logWritelns (l.flatMap g) = l.flatMap fun x => logWritelns (g x) :=
  filterMap_flatMap_groups _ g l

theorem onMatchCalls_flatMap {α : Type} (g : α → List Effect) (l : List α) :
    onMatchCalls (l.flatMap g) = l.flatMap fun x => onMatchCalls (g x) :=
  filterMap_flatMap_groups _ g l

theorem onCompleteCalls_flatMap {α : Type} (g : α → List Effect) (l : List α) :
    onCompleteCalls (l.flatMap g) = l.flatMap fun x => onCompleteCalls (g x) :=
  filterMap_flatMap_groups _ g l

theorem fatals_flatMap {α : Type} (g : α → List Effect) (l : List α) :
    fatals (l.flatMap g) = l.flatMap fun x => fatals (g x) :=
  filterMap_flatMap_groups _ g l

theorem flatMap_singleton_map {α β : Type} (f : α → β) (l : List α) :
    (l.flatMap fun x => [f x]) = l.map f := by
  induction l with
  | nil => rfl
  | cons a rest ih => simp [List.flatMap_cons, ih]

/-! ## The file filter and the shape of a group run -/

theorem filter_fold_filePaths (env : Env) (src : List String) (s : FilterState) :
    (src.foldl (filterBody env) s).filePaths = s.filePaths ++ keptPaths env src := by
  induction src generalizing s with
  | nil => simp [keptPaths]
  | cons p rest ih =>
    simp only [List.foldl_cons, ih, keptPaths]
    cases hd : env.isDir p <;> cases he : env.fileExists p <;>
      simp [filterBody, hd, he, List.filter_cons]

theorem filter_fold_trace (env : Env) (src : List String) (s : FilterState) :
    (src.foldl (filterBody env) s).trace
      = s.trace ++ src.flatMap fun p =>
          (filterBody env { filePaths := [], trace := [] } p).trace := by
  induction src generalizing s with
  | nil => simp
  | cons p rest ih =>
    simp only [List.foldl_cons, ih, List.flatMap_cons]
    cases hd : env.isDir p <;> cases he : env.fileExists p <;>
      simp [filterBody, hd, he]

theorem filterFiles_filePaths (env : Env) (src : List String) :
    (filterFiles env src).filePaths = keptPaths env src := by
  simp [filterFiles, filter_fold_filePaths]

theorem filterFiles_trace (env : Env) (src : List String) :
    (filterFiles env src).trace
      = src.flatMap fun p => (filterBody env { filePaths := [], trace := [] } p).trace := by
  simp [filterFiles, filter_fold_trace]

theorem searchGroup_filePaths (env : Env) (options : Options) (re : RegExp)
    (src : List String) :
    (searchGroup env options re src).filePaths = keptPaths env src := by
  unfold searchGroup
  simp only [filterFiles_filePaths]
  split <;> rfl

theorem searchGroup_results (env : Env) (options : Options) (re : RegExp)
    (src : List String) :
    (searchGroup env options re src).results
      = (scan env options re (keptPaths env src)).results := by
  unfold searchGroup
  simp only [filterFiles_filePaths]
  split <;> rfl

theorem searchGroup_numMatches (env : Env) (options : Options) (re : RegExp)
    (src : List String) :
    (searchGroup env options re src).numMatches
      = (scan env options re (keptPaths env src)).numMatches := by
  unfold searchGroup
  simp only [filterFiles_filePaths]
  split <;> rfl

theorem searchGroup_thrown (env : Env) (options : Options) (re : RegExp)
    (src : List String) :
    (searchGroup env options re src).thrown
      = (scan env options re (keptPaths env src)).thrown := by
  unfold searchGroup
  simp only [filterFiles_filePaths]
  split <;> simp_all

theorem searchGroup_trace (env : Env) (options : Options) (re : RegExp) (src : List String) :
    (searchGroup env options re src).trace
      = (filterFiles env src).trace
        ++ (scan env options re (keptPaths env src)).trace
        ++ (if (scan env options re (keptPaths env src)).thrown = true
            then [Effect.thrown "TypeError"]
            else afterScan env options re (keptPaths env src)
                  (scan env options re (keptPaths env src)).results
                  (scan env options re (keptPaths env src)).numMatches) := by
  unfold searchGroup
  simp only [filterFiles_filePaths]
  split <;> simp_all

theorem searchGroup_trace_of_not_thrown (env : Env) (options : Options) (re : RegExp)
    (src : List String) (h : (scan env options re (keptPaths env src)).thrown = false) :
    (searchGroup env options re src).trace
      = (filterFiles env src).trace
        ++ (scan env options re (keptPaths env src)).trace
        ++ afterScan env options re (keptPaths env src)
            (scan env options re (keptPaths env src)).results
            (scan env options re (keptPaths env src)).numMatches := by
  rw [searchGroup_trace, h]
  simp

theorem forEachGroup_of_not_thrown (env : Env) (options : Options) (re : RegExp)
    (files : List (List String))
    (h : ∀ src ∈ files, (scan env options re (keptPaths env src)).thrown = false) :
    forEachGroup env options re files
      = files.flatMap fun src => (searchGroup env options re src).trace := by
  induction files with
  | nil => rfl
  | cons src rest ih =>
    have h1 : (searchGroup env options re src).thrown = false := by
      rw [searchGroup_thrown]
      exact h src (by simp)
    have h2 := ih (fun s hs => h s (by simp [hs]))
    simp [forEachGroup, h1, h2]

theorem validateOptions_valid (options : Options) (h : (validateOptions options).1 = true) :
    (validateOptions options).2 = [] := by
  simp only [validateOptions, beq_iff_eq, List.length_eq_zero] at h
  simp [validateOptions, h]

theorem searchTask_of_compiled (env : Env) (options : Options) (files : List (List String))
    (ss : SearchString) (re : RegExp) (hv : (validateOptions options).1 = true)
    (hss : options.searchString = some ss) (hre : toRegExp env ss = some re)
    (hq : ∀ src ∈ files, (scan env options re (keptPaths env src)).thrown = false) :
    searchTask env options files
      = files.flatMap fun src => (searchGroup env options re src).trace := by
  simp [searchTask, hv, hss, hre, validateOptions_valid options hv,
    forEachGroup_of_not_thrown env options re files hq]

theorem searchTask_of_rejected (env : Env) (options : Options) (files : List (List String))
    (ss : SearchString) (hv : (validateOptions options).1 = true)
    (hss : options.searchString = some ss) (hre : toRegExp env ss = none) :
    searchTask env options files = [Effect.thrown "SyntaxError"] := by
  simp [searchTask, hv, hss, hre, validateOptions_valid options hv]

/-! ## The kinds of effects of each phase -/

theorem filterFiles_trace_kinds (env : Env) (src : List String) :
    ∀ e ∈ (filterFiles env src).trace, e.isFilterEffect = true := by
  intro e he
  rw [filterFiles_trace, List.mem_flatMap] at he
  obtain ⟨p, _, hp⟩ := he
  cases hd : env.isDir p <;> cases hx : env.fileExists p <;>
    simp [filterBody, hd, hx] at hp <;> aesop

theorem lineBody_trace_kinds (options : Options) (re : RegExp) (file : String) (j : Nat)
    (line : String) (s : ScanState) (h : ∀ e ∈ s.trace, e.isScanEffect = true) :
    ∀ e ∈ (lineBody options re file j line s).trace, e.isScanEffect = true := by
  cases ho : re.occurrences line with
  | nil =>
    rw [lineBody_none _ _ _ _ _ _ ho]
    exact h
  | cons m ms =>
    cases hs : s.thrown with
    | true =>
      rw [lineBody_thrown _ _ _ _ _ _ hs]
      exact h
    | false =>
      cases hp : Props.has s.results.own "hasOwnProperty" with
      | true =>
        rw [lineBody_raise options re file j line s m ms ho hs hp]
        exact h
      | false =>
        rw [lineBody_match options re file j line s m ms ho hs hp]
        intro e he
        simp only [List.mem_append] at he
        rcases he with he | he
        · exact h e he
        · cases hcb : options.onMatch with
          | none => simp [hcb] at he
          | some cb =>
            simp [hcb] at he
            subst he
            rfl

theorem lineLoop_trace_kinds (options : Options) (re : RegExp) (file : String) (j : Nat)
    (lines : List String) (s : ScanState) (h : ∀ e ∈ s.trace, e.isScanEffect = true) :
    ∀ e ∈ (lineLoop options re file j lines s).trace, e.isScanEffect = true := by
  induction lines generalizing j s with
  | nil => exact h
  | cons line rest ih => exact ih (j + 1) _ (lineBody_trace_kinds options re file j line s h)

theorem scan_fold_trace_kinds (env : Env) (options : Options) (re : RegExp)
    (filePaths : List String) (s : ScanState) (h : ∀ e ∈ s.trace, e.isScanEffect = true) :
    ∀ e ∈ (filePaths.foldl (fileBody env options re) s).trace, e.isScanEffect = true := by
  induction filePaths generalizing s with
  | nil => exact h
  | cons f rest ih =>
    rw [List.foldl_cons]
    apply ih
    cases hs : s.thrown with
    | true =>
      rw [fileBody_thrown _ _ _ _ _ hs]
      exact h
    | false =>
      have hfb : fileBody env options re s f
          = lineLoop options re f 1 (splitLines (env.read f))
              { s with trace := s.trace ++ [Effect.read f] } := by
        simp [fileBody, hs]
      rw [hfb]
      apply lineLoop_trace_kinds
      intro e he
      simp only [List.mem_append, List.mem_singleton] at he
      rcases he with he | he
      · exact h e he
      · subst he
        rfl

theorem scan_trace_kinds (env : Env) (options : Options) (re : RegExp)
    (filePaths : List String) :
    ∀ e ∈ (scan env options re filePaths).trace, e.isScanEffect = true :=
  scan_fold_trace_kinds env options re filePaths _ (by simp)

theorem filterFiles_trace_quiet (env : Env) (src : List String) :
    fileWrites (filterFiles env src).trace = []
    ∧ logWritelns (filterFiles env src).trace = []
    ∧ onMatchCalls (filterFiles env src).trace = []
    ∧ onCompleteCalls (filterFiles env src).trace = []
    ∧ fatals (filterFiles env src).trace = [] := by
  refine ⟨?_, ?_, ?_, ?_, ?_⟩
  all_goals
    simp only [fileWrites, logWritelns, onMatchCalls, onCompleteCalls, fatals,
      List.filterMap_eq_nil_iff]
    intro e he
    have := filterFiles_trace_kinds env src e he
    cases e <;> first | rfl | simp [Effect.isFilterEffect] at this

theorem scan_trace_quiet (env : Env) (options : Options) (re : RegExp)
    (filePaths : List String) :
    fileWrites (scan env options re filePaths).trace = []
    ∧ logWritelns (scan env options re filePaths).trace = []
    ∧ onCompleteCalls (scan env options re filePaths).trace = []
    ∧ fatals (scan env options re filePaths).trace = []
    ∧ warnings (scan env options re filePaths).trace = [] := by
  refine ⟨?_, ?_, ?_, ?_, ?_⟩
  all_goals
    simp only [fileWrites, logWritelns, onCompleteCalls, fatals, warnings,
      List.filterMap_eq_nil_iff]
    intro e he
    have := scan_trace_kinds env options re filePaths e he
    cases e <;> first | rfl | simp [Effect.isScanEffect] at this

theorem generateLogFile_quiet (env : Env) (options : Options) (filePaths : List String)
    (results : JsObject (List MatchRecord)) (numResults : Nat) :
    onMatchCalls (generateLogFile env options filePaths results numResults) = []
    ∧ onCompleteCalls (generateLogFile env options filePaths results numResults) = []
    ∧ fatals (generateLogFile env options filePaths results numResults) = []
    ∧ warnings (generateLogFile env options filePaths results numResults) = [] := by
  unfold generateLogFile
  split <;> exact ⟨rfl, rfl, rfl, rfl⟩

theorem generateLogFile_fileWrites (env : Env) (options : Options) (filePaths : List String)
    (results : JsObject (List MatchRecord)) (numResults : Nat) :
    fileWrites (generateLogFile env options filePaths results numResults)
      = if options.logFormat ≠ "console"
        then [(options.logFile, logContent env options filePaths results numResults)]
        else [] := by
  unfold generateLogFile
  split <;> rfl

theorem generateLogFile_logWritelns (env : Env) (options : Options) (filePaths : List String)
    (results : JsObject (List MatchRecord)) (numResults : Nat) :
    logWritelns (generateLogFile env options filePaths results numResults)
      = if options.logFormat ≠ "console" then []
        else [logContent env options filePaths results numResults] := by
  unfold generateLogFile
  split <;> rfl

theorem afterScan_eq (env : Env) (options : Options) (re : RegExp) (filePaths : List String)
    (results : JsObject (List MatchRecord)) (numMatches : Nat) :
    afterScan env options re filePaths results numMatches
      = generateLogFile env options filePaths results numMatches
        ++ ((if 0 < numMatches ∧ options.failOnMatch = true then
              [Effect.failFatal ("Matches of " ++ re.toString ++ " found")]
            else [])
          ++ ((match options.onComplete with
              | some cb => [Effect.onComplete cb numMatches results]
              | none => [])
            ++ [Effect.logWriteln ("Num matches: " ++ toString numMatches)])) := by
  simp [afterScan]

theorem afterScan_fileWrites (env : Env) (options : Options) (re : RegExp)
    (filePaths : List String) (results : JsObject (List MatchRecord)) (numMatches : Nat) :
    fileWrites (afterScan env options re filePaths results numMatches)
      = if options.logFormat ≠ "console"
        then [(options.logFile, logContent env options filePaths results numMatches)]
        else [] := by
  rw [afterScan_eq, fileWrites_append, fileWrites_append, fileWrites_append,
    generateLogFile_fileWrites]
  cases options.onComplete <;> split <;> split <;> simp [fileWrites]

theorem afterScan_logWritelns (env : Env) (options : Options) (re : RegExp)
    (filePaths : List String) (results : JsObject (List MatchRecord)) (numMatches : Nat) :
    logWritelns (afterScan env options re filePaths results numMatches)
      = (if options.logFormat ≠ "console" then []
         else [logContent env options filePaths results numMatches])
        ++ ["Num matches: " ++ toString numMatches] := by
  rw [afterScan_eq, logWritelns_append, logWritelns_append, logWritelns_append,
    generateLogFile_logWritelns]
  cases options.onComplete <;> split <;> split <;> simp [logWritelns]

theorem afterScan_onCompleteCalls (env : Env) (options : Options) (re : RegExp)
    (filePaths : List String) (results : JsObject (List MatchRecord)) (numMatches : Nat) :
    onCompleteCalls (afterScan env options re filePaths results numMatches)
      = match options.onComplete with
        | some cb => [(cb, numMatches, results)]
        | none => [] := by
  rw [afterScan_eq, onCompleteCalls_append, onCompleteCalls_append, onCompleteCalls_append,
    (generateLogFile_quiet env options _ _ _).2.1]
  cases options.onComplete <;> split <;> simp [onCompleteCalls]

theorem afterScan_fatals (env : Env) (options : Options) (re : RegExp)
    (filePaths : List String) (results : JsObject (List MatchRecord)) (numMatches : Nat) :
    fatals (afterScan env options re filePaths results numMatches)
      = if 0 < numMatches ∧ options.failOnMatch = true
        then ["Matches of " ++ re.toString ++ " found"] else [] := by
  rw [afterScan_eq, fatals_append, fatals_append, fatals_append,
    (generateLogFile_quiet env options _ _ _).2.2.1]
  cases options.onComplete <;> split <;> simp [fatals]

theorem afterScan_quiet (env : Env) (options : Options) (re : RegExp)
    (filePaths : List String) (results : JsObject (List MatchRecord)) (numMatches : Nat) :
    onMatchCalls (afterScan env options re filePaths results numMatches) = []
    ∧ warnings (afterScan env options re filePaths results numMatches) = [] := by
  rw [afterScan_eq]
  simp only [onMatchCalls_append, warnings_append,
    (generateLogFile_quiet env options _ _ _).1, (generateLogFile_quiet env options _ _ _).2.2.2]
  cases options.onComplete <;> constructor <;> split <;> simp [onMatchCalls, warnings]

/-! ## The line splitter -/

theorem splitLF_ne_nil (cs : List Char) : splitLF cs ≠ [] := by
  cases cs with
  | nil => simp [splitLF]
  | cons c cs =>
    by_cases hc : c = '\n'
    · simp [splitLF, hc]
    · cases hs : splitLF cs <;> simp [splitLF, hc, hs]

theorem splitLF_no_LF (cs : List Char) : ∀ l ∈ splitLF cs, '\n' ∉ l := by
  induction cs with
  | nil => simp [splitLF]
  | cons c cs ih =>
    by_cases hc : c = '\n'
    · intro l hl
      simp only [splitLF, hc, if_true, List.mem_cons] at hl
      rcases hl with rfl | hl
      · simp
      · exact ih l hl
    · cases hs : splitLF cs with
      | nil => exact absurd hs (splitLF_ne_nil cs)
      | cons l0 ls =>
        rw [hs] at ih
        intro l hl
        simp only [splitLF, hc, if_false, hs, List.mem_cons] at hl
        rcases hl with rfl | hl
        · intro hmem
          rcases List.mem_cons.mp hmem with h | h
          · exact hc h.symm
          · exact ih l0 (List.mem_cons_self _ _) h
        · exact ih l (List.mem_cons_of_mem _ hl)

theorem joinLF_splitLF (cs : List Char) : joinLF (splitLF cs) = cs := by
  induction cs with
  | nil => simp [splitLF, joinLF]
  | cons c cs ih =>
    by_cases hc : c = '\n'
    · cases hs : splitLF cs with
      | nil => exact absurd hs (splitLF_ne_nil cs)
      | cons l0 ls =>
        rw [hs] at ih
        simp [splitLF, hc, hs, joinLF, ih]
    · cases hs : splitLF cs with
      | nil => exact absurd hs (splitLF_ne_nil cs)
      | cons l0 ls =>
        rw [hs] at ih
        cases ls with
        | nil =>
          simp only [joinLF] at ih
          simp [splitLF, hc, hs, joinLF, ih]
        | cons l1 ls =>
          simp only [joinLF] at ih
          simp [splitLF, hc, hs, joinLF, ih]

theorem intercalate_go_data (acc s : String) (l : List String) :
    (String.intercalate.go acc s l).data
      = acc.data ++ l.flatMap fun a => s.data ++ a.data := by
  induction l generalizing acc with
  | nil => simp [String.intercalate.go]
  | cons a rest ih => simp [String.intercalate.go, ih, String.data_append]

theorem intercalate_LF_data (ls : List (List Char)) :
    (String.intercalate "\n" (ls.map String.mk)).data = joinLF ls := by
  cases ls with
  | nil => simp [String.intercalate, joinLF]
  | cons l0 ls =>
    simp only [List.map_cons, String.intercalate, intercalate_go_data]
    induction ls generalizing l0 with
    | nil => simp [joinLF]
    | cons l1 ls ih =>
      have := ih l1
      simp only [List.map_cons, List.flatMap_cons, joinLF] at this ⊢
      rw [← this]
      simp

theorem intercalate_splitLines (content : String) :
    String.intercalate "\n" (splitLines content) = content := by
  apply String.ext
  rw [splitLines, intercalate_LF_data, joinLF_splitLF]

/-! ## Validation -/

theorem validateOptions_effects (options : Options) :
    ∀ e ∈ (validateOptions options).2, ∃ msg, e = Effect.logError "Error: " msg := by
  intro e he
  simp only [validateOptions, List.mem_map] at he
  obtain ⟨msg, _, rfl⟩ := he
  exact ⟨msg, rfl⟩

theorem logContent_console (env : Env) (options : Options) (filePaths : List String)
    (results : JsObject (List MatchRecord)) (numResults : Nat)
    (h : options.logFormat = "console") :
    logContent env options filePaths results numResults
      = getTextLogFormat env options filePaths results numResults := by
  simp [logContent, h]

/-! ## The quote escaper -/

theorem cleanStr_data (s : String) :
    (cleanStr s).data = s.data.flatMap fun c => if c = '"' then ['\\', '"'] else [c] := rfl

theorem clean_length (cs : List Char) :
    (cs.flatMap fun c => if c = '"' then ['\\', '"'] else [c]).length
      = cs.length + cs.count '"' := by
  induction cs with
  | nil => rfl
  | cons c cs ih =>
    by_cases hc : c = '"'
    · subst hc
      simp only [List.flatMap_cons, List.length_append, ih, List.count_cons_self,
        List.length_cons]
      simp
      omega
    · have hc2 : ¬ ('"' = c) := fun h => hc h.symm
      simp only [List.flatMap_cons, List.length_append, ih, List.length_cons, hc, if_false,
        List.count_cons, beq_iff_eq]
      simp [hc]
      omega

theorem clean_count (cs : List Char) :
    (cs.flatMap fun c => if c = '"' then ['\\', '"'] else [c]).count '"' = cs.count '"' := by
  induction cs with
  | nil => rfl
  | cons c cs ih =>
    by_cases hc : c = '"'
    · subst hc
      simp only [List.flatMap_cons, List.count_append, ih, List.count_cons_self]
      simp [List.count_cons]
      omega
    · simp only [List.flatMap_cons, List.count_append, ih, hc, if_false, List.count_cons]
      simp [hc]

theorem clean_of_no_quote (cs : List Char) (h : '"' ∉ cs) :
    (cs.flatMap fun c => if c = '"' then ['\\', '"'] else [c]) = cs := by
  induction cs with
  | nil => rfl
  | cons c cs ih =>
    have hc : c ≠ '"' := fun hc => h (by simp [hc])
    have hcs : '"' ∉ cs := fun hm => h (List.mem_cons_of_mem _ hm)
    simp [List.flatMap_cons, hc, ih hcs]

theorem dropQuoteEscapes_clean (cs : List Char) :
    dropQuoteEscapes (cs.flatMap fun c => if c = '"' then ['\\', '"'] else [c]) = cs := by
  induction cs with
  | nil => rfl
  | cons c cs ih =>
    by_cases hc : c = '"'
    · subst hc
      simp only [List.flatMap_cons, if_true, List.cons_append, List.nil_append]
      rw [dropQuoteEscapes]
      simp [ih]
    · simp only [List.flatMap_cons, hc, if_false, List.cons_append, List.nil_append]
      cases hrest : (cs.flatMap fun c => if c = '"' then ['\\', '"'] else [c]) with
      | nil =>
        rw [hrest] at ih
        simp only [dropQuoteEscapes] at ih ⊢
        rw [← ih]
      | cons d ds =>
        rw [hrest] at ih
        rw [dropQuoteEscapes]
        have hd : d ≠ '"' := by
          intro hd
          cases cs with
          | nil => simp at hrest
          | cons c2 cs2 =>
            by_cases hc2 : c2 = '"'
            · simp [List.flatMap_cons, hc2] at hrest
              rw [← hrest.1] at hd
              simp at hd
            · simp [List.flatMap_cons, hc2] at hrest
              exact hc2 (hrest.1 ▸ hd)
        simp [hd, ih]

theorem clean_quote_preceded (cs : List Char) (i : Nat)
    (h : (cs.flatMap fun c => if c = '"' then ['\\', '"'] else [c])[i]? = some '"') :
    0 < i ∧ (cs.flatMap fun c => if c = '"' then ['\\', '"'] else [c])[i - 1]? = some '\\' := by
  induction cs generalizing i with
  | nil => simp at h
  | cons c cs ih =>
    by_cases hc : c = '"'
    · subst hc
      simp only [List.flatMap_cons, if_true, List.cons_append, List.nil_append] at h ⊢
      match i, h with
      | 0, h => simp at h
      | 1, _ => simp
      | k + 2, h =>
        simp only [List.getElem?_cons_succ] at h
        have := ih k h
        refine ⟨by omega, ?_⟩
        obtain ⟨hk, hprev⟩ := this
        have e : k + 2 - 1 = (k - 1) + 1 + 1 := by omega
        rw [e]
        simpa using hprev
    · simp only [List.flatMap_cons, hc, if_false, List.cons_append, List.nil_append] at h ⊢
      match i, h with
      | 0, h =>
        simp at h
        exact absurd h hc
      | k + 1, h =>
        simp only [List.getElem?_cons_succ] at h
        obtain ⟨hk, hprev⟩ := ih k h
        refine ⟨by omega, ?_⟩
        have e : k + 1 - 1 = (k - 1) + 1 := by omega
        rw [e]
        simpa using hprev

/-! ## Decimal numerals -/

theorem toDigitsCore_last (f n : Nat) (ds : List Char) (h : n < 10) :
    Nat.toDigitsCore 10 (f + 1) n ds = Nat.digitChar n :: ds := by
  have b : n / 10 = 0 := by omega
  have c : n % 10 = n := by omega
  simp [Nat.toDigitsCore, b, c]

theorem toDigitsCore_step (f n : Nat) (ds : List Char) (h : 10 ≤ n) :
    Nat.toDigitsCore 10 (f + 1) n ds
      = Nat.toDigitsCore 10 f (n / 10) (Nat.digitChar (n % 10) :: ds) := by
  have a : n / 10 ≠ 0 := by omega
  simp [Nat.toDigitsCore, a]

theorem toString_one_digit (n : Nat) (h : n < 10) :
    toString n = String.mk [Nat.digitChar n] := by
  simp only [toString, Nat.repr, Nat.toDigits, List.asString]
  rw [toDigitsCore_last n n [] h]

theorem toString_two_digits (n : Nat) (h1 : 10 ≤ n) (h2 : n < 100) :
    toString n = String.mk [Nat.digitChar (n / 10), Nat.digitChar (n % 10)] := by
  obtain ⟨f, rfl⟩ : ∃ f, n = f + 1 := ⟨n - 1, by omega⟩
  simp only [toString, Nat.repr, Nat.toDigits, List.asString]
  rw [toDigitsCore_step _ _ _ h1, toDigitsCore_last f _ _ (by omega)]

theorem toString_four_digits (n : Nat) (h1 : 1000 ≤ n) (h2 : n < 10000) :
    toString n = String.mk [Nat.digitChar (n / 1000), Nat.digitChar (n / 100 % 10),
      Nat.digitChar (n / 10 % 10), Nat.digitChar (n % 10)] := by
  obtain ⟨f, rfl⟩ : ∃ f, n = f + 3 := ⟨n - 3, by omega⟩
  simp only [toString, Nat.repr, Nat.toDigits, List.asString]
  rw [toDigitsCore_step _ _ _ (by omega), toDigitsCore_step _ _ _ (by omega),
    toDigitsCore_step _ _ _ (by omega), toDigitsCore_last f _ _ (by omega)]
  have e1 : (f + 3) / 10 / 10 / 10 = (f + 3) / 1000 := by omega
  have e2 : (f + 3) / 10 / 10 = (f + 3) / 100 := by omega
  rw [e1, e2]

theorem pad_two_digits (n : Nat) (h : n < 100) :
    pad n = String.mk [Nat.digitChar (n / 10), Nat.digitChar (n % 10)] := by
  by_cases h10 : n < 10
  · have a : n / 10 = 0 := by omega
    have b : n % 10 = n := by omega
    simp only [pad, h10, if_true, toString_one_digit n h10, a, b]
    rfl
  · simp only [pad, h10, if_false]
    exact toString_two_digits n (by omega) h

/-! ## The encoders as concatenations -/

theorem foldl_append_init (l : List String) (init : String) :
    l.foldl (fun r s => r ++ s) init = init ++ String.join l := by
  induction l generalizing init with
  | nil => simp [String.join]
  | cons a rest ih =>
    simp only [List.foldl_cons, String.join]
    rw [ih, ih ("" ++ a)]
    simp [String.append_assoc]

theorem join_cons (a : String) (l : List String) :
    String.join (a :: l) = a ++ String.join l := by
  simp only [String.join, List.foldl_cons]
  rw [foldl_append_init, foldl_append_init]
  simp [String.join]

theorem join_append (l1 l2 : List String) :
    String.join (l1 ++ l2) = String.join l1 ++ String.join l2 := by
  induction l1 with
  | nil => simp [String.join]
  | cons a rest ih => simp [join_cons, ih, String.append_assoc]

theorem foldl_append_map {α : Type} (f : α → String) (l : List α) (init : String) :
    l.foldl (fun acc x => acc ++ f x) init = init ++ String.join (l.map f) := by
  induction l generalizing init with
  | nil => simp [String.join]
  | cons a rest ih =>
    simp only [List.foldl_cons, List.map_cons, ih, join_cons, String.append_assoc]

theorem foldl_entries (g : String → MatchRecord → String)
    (results : JsObject (List MatchRecord)) (files : List String) (init : String) :
    files.foldl (fun acc file =>
        (resultsOf results file).foldl (fun acc r => acc ++ g file r) acc) init
      = init ++ String.join
          ((files.flatMap fun file => (resultsOf results file).map fun r => (file, r)).map
            fun e => g e.1 e.2) := by
  induction files generalizing init with
  | nil => simp [String.join]
  | cons file rest ih =>
    simp only [List.foldl_cons]
    rw [ih, foldl_append_map, List.flatMap_cons, List.map_append, join_append, List.map_map,
      String.append_assoc]
    rfl

theorem getJSONLogFormat_eq (env : Env) (options : Options) (filePaths : List String)
    (results : JsObject (List MatchRecord)) (numResults : Nat) :
    getJSONLogFormat env options filePaths results numResults
      = "\x7b\n\t\"numResults\": " ++ toString numResults ++ ",\n"
        ++ "\t\"creationDate\": \"" ++ getISODateString env.now ++ "\",\n"
        ++ "\t\"results\": \x7b\n"
        ++ String.intercalate ",\n" ((forInKeys results).map (jsonGroup results))
        ++ "\n\t\x7d"
        ++ (if options.outputExaminedFiles = true then jsonExaminedFiles filePaths else "")
        ++ "\n\x7d" := by
  delta getJSONLogFormat jsonGroup jsonRecord jsonExaminedFiles
  cases h : options.outputExaminedFiles <;>
    simp only [String.append_assoc, Bool.false_eq_true, if_false, if_true, String.empty_append]

theorem getXMLLogFormat_eq (env : Env) (options : Options) (filePaths : List String)
    (results : JsObject (List MatchRecord)) (numResults : Nat) :
    getXMLLogFormat env options filePaths results numResults
      = "<?xml version=\"1.0\"?>\n"
        ++ "<search>\n"
        ++ "\t<numResults>" ++ toString numResults ++ "</numResults>\n"
        ++ "\t<creationDate>" ++ getISODateString env.now ++ "</creationDate>\n"
        ++ "\t<results>"
        ++ String.join ((renderedEntries results).map fun e => xmlResult e.1 e.2)
        ++ "\n"
        ++ "\t</results>\n"
        ++ (if options.outputExaminedFiles = true then xmlExaminedFiles filePaths else "")
        ++ "</search>" := by
  have h1 := foldl_entries xmlResult results (forInKeys results) ""
  have h2 : ∀ init : String, filePaths.foldl
      (fun content p => content ++ ("\t\t<file>" ++ p ++ "</file>\n")) init
      = init ++ String.join (filePaths.map fun p => "\t\t<file>" ++ p ++ "</file>\n") :=
    fun init => foldl_append_map _ filePaths init
  simp only [xmlResult] at h1
  simp only [getXMLLogFormat, renderedEntries, xmlResult, xmlExaminedFiles]
  simp only [h1, h2]
  cases h : options.outputExaminedFiles <;>
    simp only [String.append_assoc, Bool.false_eq_true, if_false, if_true,
      String.empty_append, String.append_empty]

theorem getTextLogFormat_eq (env : Env) (options : Options) (filePaths : List String)
    (results : JsObject (List MatchRecord)) (numResults : Nat) :
    getTextLogFormat env options filePaths results numResults
      = "Num results: " ++ toString numResults ++ "\n"
        ++ "Creation date: " ++ getISODateString env.now ++ "\n"
        ++ "Results:\n"
        ++ String.join ((renderedEntries results).map fun e => textEntry e.1 e.2)
        ++ (if options.outputExaminedFiles = true then textExaminedFiles filePaths else "") := by
  have h1 := fun init => foldl_entries textEntry results (forInKeys results) init
  have h2 : ∀ init : String, filePaths.foldl
      (fun content p => content ++ ("\t" ++ p ++ "\n")) init
      = init ++ String.join (filePaths.map fun p => "\t" ++ p ++ "\n") :=
    fun init => foldl_append_map _ filePaths init
  simp only [textEntry] at h1
  simp only [getTextLogFormat, renderedEntries, textEntry, textExaminedFiles]
  simp only [h1, h2]
  cases h : options.outputExaminedFiles <;>
    simp only [String.append_assoc, Bool.false_eq_true, if_false, if_true,
      String.empty_append, String.append_empty]

/-! ## Enumeration order and stored records -/

theorem arrayIndex_toString (k : String) (n : Nat) (h : arrayIndex k = some n) :
    toString n = k := by
  unfold arrayIndex at h
  cases hd : digitsValue k.data with
  | none => simp [hd] at h
  | some m =>
    simp only [hd] at h
    by_cases hc : m < 4294967295 ∧ toString m = k
    · simp only [hc, and_self, if_true, Option.some.injEq] at h
      rw [← h]
      exact hc.2
    · simp [hc] at h

theorem map_toString_filterMap_arrayIndex (ks : List String) :
    (ks.filterMap arrayIndex).map toString = ks.filter fun k => (arrayIndex k).isSome := by
  induction ks with
  | nil => rfl
  | cons k rest ih =>
    cases h : arrayIndex k with
    | none => simp [List.filterMap_cons, List.filter_cons, h, ih]
    | some n =>
      simp [List.filterMap_cons, List.filter_cons, h, ih, arrayIndex_toString k n h]


theorem forInKeys_eq (o : JsObject (List MatchRecord)) :
    ∃ l : List String, l.Perm (JsObject.keys o) ∧ forInKeys o = l ++ inheritedKeys o := by
  refine ⟨(((JsObject.keys o).filterMap arrayIndex).insertionSort (· ≤ ·)).map toString
      ++ (JsObject.keys o).filter (fun k => (arrayIndex k).isNone), ?_, rfl⟩
  have h1 : ((((JsObject.keys o).filterMap arrayIndex).insertionSort (· ≤ ·)).map toString).Perm
      ((JsObject.keys o).filter fun k => (arrayIndex k).isSome) := by
    rw [← map_toString_filterMap_arrayIndex]
    exact (List.perm_insertionSort _ _).map _
  have h2 : ((JsObject.keys o).filter fun k => (arrayIndex k).isNone)
      = (JsObject.keys o).filter fun k => !(arrayIndex k).isSome := by
    congr 1
    funext k
    cases arrayIndex k <;> rfl
  simp only [h2]
  exact (h1.append_right _).trans (List.filter_append_perm _ _)

theorem forInKeys_of_no_index (o : JsObject (List MatchRecord))
    (h : ∀ k ∈ JsObject.keys o, arrayIndex k = none) :
    forInKeys o = JsObject.keys o ++ inheritedKeys o := by
  unfold forInKeys
  have h1 : (JsObject.keys o).filterMap arrayIndex = [] := by
    rw [List.filterMap_eq_nil_iff]
    exact h
  have h2 : ((JsObject.keys o).filter fun k => (arrayIndex k).isNone) = JsObject.keys o := by
    rw [List.filter_eq_self]
    intro k hk
    simp [h k hk]
  simp only [h1, h2]
  rfl

theorem resultsOf_inherited (o : JsObject (List MatchRecord)) :
    ∀ k ∈ inheritedKeys o, resultsOf o k = [] := by
  intro k hk
  unfold inheritedKeys at hk
  cases hp : o.proto with
  | none => simp [hp] at hk
  | some arr =>
    simp only [hp, List.mem_filter] at hk
    have hnot : k ∉ Props.keys o.own := by
      have := hk.2
      simpa [JsObject.keys] using this
    simp [resultsOf, Props.get_of_not_mem_keys o.own k hnot]

theorem flatMap_inherited (o : JsObject (List MatchRecord)) :
    ((inheritedKeys o).flatMap fun k => (resultsOf o k).map fun r => (k, r)) = [] := by
  rw [List.flatMap_eq_nil_iff]
  intro k hk
  simp [resultsOf_inherited o k hk]

theorem Props.keys_set {α : Type} (o : Props α) (k : String) (v : α) :
    Props.keys (Props.set o k v)
      = if k ∈ Props.keys o then Props.keys o else Props.keys o ++ [k] := by
  induction o with
  | nil => simp [Props.set, Props.keys]
  | cons e rest ih =>
    obtain ⟨k1, v1⟩ := e
    simp only [Props.keys] at ih
    by_cases h : k1 = k
    · simp [Props.set, Props.keys, h]
    · have h2 : ¬ k = k1 := fun e => h e.symm
      by_cases hm : k ∈ List.map Prod.fst rest
      · simp only [Props.set, Props.keys, h, if_false, List.map_cons, ih, hm, if_true,
          List.mem_cons, or_true]
      · simp only [Props.set, Props.keys, h, if_false, List.map_cons, ih, hm,
          List.mem_cons, h2, or_self, List.cons_append]

theorem keys_appendRecords (o : Props (List MatchRecord)) (f : String)
    (rs : List MatchRecord) :
    Props.keys (appendRecords o f rs)
      = if rs = [] ∨ f ∈ Props.keys o then Props.keys o else Props.keys o ++ [f] := by
  by_cases hrs : rs = []
  · simp [appendRecords, hrs]
  · by_cases hf : f ∈ Props.keys o
    · simp [appendRecords, hrs, Props.keys_set, hf]
    · simp [appendRecords, hrs, Props.keys_set, hf]

theorem keys_foldl_appendRecords (R : String → List MatchRecord) (filePaths : List String)
    (o : Props (List MatchRecord)) :
    Props.keys (filePaths.foldl (fun acc g => appendRecords acc g (R g)) o)
      = Props.keys o
        ++ (firstOccurrences (filePaths.filter fun f => !(R f).isEmpty)).filter
            (fun g => decide (g ∉ Props.keys o)) := by
  induction filePaths generalizing o with
  | nil => simp [firstOccurrences]
  | cons f rest ih =>
    simp only [List.foldl_cons]
    rw [ih, keys_appendRecords]
    by_cases hrs : R f = []
    · simp [hrs, List.filter_cons]
    · have hne : (!(R f).isEmpty) = true := by
        cases hR : R f with
        | nil => exact absurd hR hrs
        | cons a b => rfl
      simp only [List.filter_cons, hne, if_true, firstOccurrences, hrs, false_or]
      by_cases hf : f ∈ Props.keys o
      · simp only [hf, if_true, not_true_eq_false, decide_False, Bool.false_eq_true, if_false,
          List.filter_filter]
        congr 1
        apply List.filter_congr
        intro g _
        by_cases hg : g ∈ Props.keys o
        · simp [hg]
        · have : g ≠ f := fun e => hg (e ▸ hf)
          simp [hg, this]
      · simp only [hf, if_false, not_false_eq_true, decide_True, if_true, List.filter_filter,
          List.append_assoc, List.singleton_append]
        congr 2
        apply List.filter_congr
        intro g _
        by_cases hg : g ∈ Props.keys o
        · simp [hg]
        · by_cases hgf : g = f
          · simp [hgf]
          · simp [hg, hgf]

theorem scan_keys (env : Env) (options : Options) (re : RegExp) (filePaths : List String)
    (hp : "__proto__" ∉ filePaths) (ht : (scan env options re filePaths).thrown = false) :
    JsObject.keys (scan env options re filePaths).results = matchedFiles env re filePaths
    ∧ (scan env options re filePaths).results.proto = none := by
  rw [(scan_of_not_thrown env options re filePaths ht).2.2 hp]
  refine ⟨?_, rfl⟩
  simp only [JsObject.keys]
  rw [keys_foldl_appendRecords]
  simp [Props.keys, matchedFiles]

theorem inheritedKeys_of_no_proto (o : JsObject (List MatchRecord)) (h : o.proto = none) :
    inheritedKeys o = [] := by
  simp [inheritedKeys, h]

theorem entries_of_keys (o : JsObject (List MatchRecord)) (h : (JsObject.keys o).Nodup) :
    ((JsObject.keys o).flatMap fun k => (resultsOf o k).map fun r => (k, r))
      = storedEntries o := by
  obtain ⟨own, proto⟩ := o
  simp only [JsObject.keys, storedEntries, resultsOf] at h ⊢
  induction own with
  | nil => rfl
  | cons e rest ih =>
    obtain ⟨k1, v1⟩ := e
    simp only [Props.keys, List.map_cons, List.nodup_cons] at h
    have ih2 := ih h.2
    simp only [Props.keys, List.map_cons, List.flatMap_cons, Props.get, if_true,
      Option.getD_some] at ih2 ⊢
    congr 1
    rw [← ih2]
    apply List.flatMap_congr
    intro k hk
    have hne : k1 ≠ k := fun e => h.1 (e ▸ hk)
    simp [hne]

theorem renderedEntries_perm (o : JsObject (List MatchRecord))
    (h : (JsObject.keys o).Nodup) : (renderedEntries o).Perm (storedEntries o) := by
  obtain ⟨l, hl, he⟩ := forInKeys_eq o
  rw [← entries_of_keys o h, renderedEntries, he, List.flatMap_append, flatMap_inherited,
    List.append_nil]
  exact List.Perm.flatMap_right _ hl

theorem renderedEntries_of_no_index (o : JsObject (List MatchRecord))
    (h : (JsObject.keys o).Nodup) (hk : ∀ k ∈ JsObject.keys o, arrayIndex k = none) :
    renderedEntries o = storedEntries o := by
  rw [← entries_of_keys o h, renderedEntries, forInKeys_of_no_index o hk, List.flatMap_append,
    flatMap_inherited, List.append_nil]

/-! ## The claims -/

/-- C1 fails on the code: a file named `hasOwnProperty` with the lines `TODO and TODO`, `ok`,
`TODO again` is scanned for `TODO`.  Two of its lines match, but the scan loop ends at the
second one with `numMatches` 1: the first match stored its array under the key
`hasOwnProperty` of `matches`, so at the next matching line `matches.hasOwnProperty(file)`
(line 67) calls an array and raises a `TypeError`.  The task ends there, without a report and
without the line `Num matches`.  The same lines in a file named `A` give `numMatches` 2. -/
theorem scan_numMatches_stops_at_type_error :
    splitLines (threeLineEnv.read "hasOwnProperty") = ["TODO and TODO", "ok", "TODO again"]
    ∧ matchingLineCount (literalRegExp "TODO") (threeLineEnv.read "hasOwnProperty") = 2
    ∧ (scan threeLineEnv todoOptions (literalRegExp "TODO") ["hasOwnProperty"]).numMatches = 1
    ∧ (scan threeLineEnv todoOptions (literalRegExp "TODO") ["hasOwnProperty"]).thrown = true
    ∧ searchTask threeLineEnv todoOptions [["hasOwnProperty"]]
        = [Effect.isDir "hasOwnProperty", Effect.fileExists "hasOwnProperty",
           Effect.read "hasOwnProperty", Effect.thrown "TypeError"]
    ∧ (scan threeLineEnv todoOptions (literalRegExp "TODO") ["A"]).numMatches = 2
    ∧ (scan threeLineEnv todoOptions (literalRegExp "TODO") ["A"]).thrown = false
    ∧ logWritelns (searchTask threeLineEnv todoOptions [["A"]]) = ["Num matches: 2"] := by
  refine ⟨by decide, by decide, by rfl, by rfl, by rfl, by rfl, by rfl, by rfl⟩

/-- C2 fails on the code.  A file named `__proto__` whose lines 1 and 3 match is no key of
`matches` after the scan: the assignment `matches["__proto__"] = []` (line 68) replaces the
prototype of `matches` and creates no property, the test of line 67 stays false, so the
array is replaced again at the next match and only the record of line 3 is left, in the
prototype.  For a file named `hasOwnProperty` the record of line 1 is stored and the scan
then ends with the `TypeError` of line 67, so the record of line 3 is missing.  In the
scenario of the specification file `A` gets the records of its lines 1 and 3 and file `B`,
without a match, is no key. -/
theorem scan_results_lost_for_object_member_names :
    matchingLineCount (literalRegExp "TODO") (threeLineEnv.read "__proto__") = 2
    ∧ (scan threeLineEnv todoOptions (literalRegExp "TODO") ["__proto__"]).results
        = { own := [], proto := some [{ line := 3, matched := "TODO" }] }
    ∧ JsObject.keys (scan threeLineEnv todoOptions (literalRegExp "TODO")
        ["__proto__"]).results = []
    ∧ JsObject.hasOwnProperty (scan threeLineEnv todoOptions (literalRegExp "TODO")
        ["__proto__"]).results "__proto__" = some false
    ∧ (scan threeLineEnv todoOptions (literalRegExp "TODO") ["__proto__"]).thrown = false
    ∧ searchTask threeLineEnv callbackOptions [["__proto__"]]
        = [Effect.isDir "__proto__", Effect.fileExists "__proto__", Effect.read "__proto__",
           Effect.onMatch { name := "notify" } "__proto__" 1 "TODO",
           Effect.onMatch { name := "notify" } "__proto__" 3 "TODO",
           Effect.fileWrite (some "out.json")
             "\x7b\n\t\"numResults\": 2,\n\t\"creationDate\": \"2013-05-09 07:05:03\",\n\t\"results\": \x7b\n\t\t\"0\": [\n\n\t\t]\n\t\x7d\n\x7d",
           Effect.onComplete { name := "done" } 2
             { own := [], proto := some [{ line := 3, matched := "TODO" }] },
           Effect.logWriteln "Num matches: 2"]
    ∧ (scan threeLineEnv todoOptions (literalRegExp "TODO") ["hasOwnProperty"]).results
        = { own := [("hasOwnProperty", [{ line := 1, matched := "TODO" }])], proto := none }
    ∧ (scan threeLineEnv todoOptions (literalRegExp "TODO") ["hasOwnProperty"]).thrown = true
    ∧ (scan todoEnv todoOptions (literalRegExp "TODO") ["A", "B"]).results
        = { own := [("A", [{ line := 1, matched := "TODO" }, { line := 3, matched := "TODO" }])],
            proto := none } := by
  refine ⟨by decide, by rfl, by rfl, by rfl, by rfl, by rfl, by rfl, by rfl, by rfl⟩

/-- C3 fails on the code.  In a file named `__proto__`, after the match of line 1 (a line with
two occurrences of `TODO`, recorded once, in the array that line 68 installed as prototype of
`matches`), the matching line 3 does not append its record: line 68 runs again, because
`matches` has no own property `__proto__`, and the record of line 1 is lost.  In a file named
`hasOwnProperty`, after the match of line 1 the next matching line raises the `TypeError` of
line 67: no record is appended and `numMatches` stays 1.  In a file named `A` the same two
lines give two records and `numMatches` 2. -/
theorem lineBody_record_lost_for_object_member_names :
    (literalRegExp "TODO").occurrences "TODO and TODO" = ["TODO", "TODO"]
    ∧ lineBody todoOptions (literalRegExp "TODO") "__proto__" 1 "TODO and TODO"
          { results := JsObject.empty, numMatches := 0, trace := [], thrown := false }
        = { results := { own := [], proto := some [{ line := 1, matched := "TODO" }] },
            numMatches := 1, trace := [], thrown := false }
    ∧ lineBody todoOptions (literalRegExp "TODO") "__proto__" 3 "TODO again"
          { results := { own := [], proto := some [{ line := 1, matched := "TODO" }] },
            numMatches := 1, trace := [], thrown := false }
        = { results := { own := [], proto := some [{ line := 3, matched := "TODO" }] },
            numMatches := 2, trace := [], thrown := false }
    ∧ lineBody todoOptions (literalRegExp "TODO") "hasOwnProperty" 1 "TODO and TODO"
          { results := JsObject.empty, numMatches := 0, trace := [], thrown := false }
        = { results := { own := [("hasOwnProperty", [{ line := 1, matched := "TODO" }])],
                         proto := none },
            numMatches := 1, trace := [], thrown := false }
    ∧ lineBody todoOptions (literalRegExp "TODO") "hasOwnProperty" 3 "TODO again"
          { results := { own := [("hasOwnProperty", [{ line := 1, matched := "TODO" }])],
                         proto := none },
            numMatches := 1, trace := [], thrown := false }
        = { results := { own := [("hasOwnProperty", [{ line := 1, matched := "TODO" }])],
                         proto := none },
            numMatches := 1, trace := [], thrown := true }
    ∧ onCompleteCalls (searchTask threeLineEnv callbackOptions [["__proto__"]])
        = [({ name := "done" }, 2,
            { own := [], proto := some [{ line := 3, matched := "TODO" }] })]
    ∧ onCompleteCalls (searchTask threeLineEnv callbackOptions [["hasOwnProperty"]]) = []
    ∧ onCompleteCalls (searchTask threeLineEnv callbackOptions [["A"]])
        = [({ name := "done" }, 2,
            { own := [("A", [{ line := 1, matched := "TODO" },
                             { line := 3, matched := "TODO" }])],
              proto := none })] := by
  refine ⟨by decide, by rfl, by rfl, by rfl, by rfl, by rfl, by rfl, by rfl⟩

/-- C8 fails on the code: with `failOnMatch` set, a file named `hasOwnProperty` whose lines 1
and 3 match is scanned.  After the first match `numMatches` is 1, so the condition of the
fatal failure holds, but the second matching line raises the `TypeError` of line 67 and the
task ends in the scan loop: lines 86 to 89 are not reached, there is no report and no fatal
failure.  With the same lines in file `A` the report is written and the fatal failure
follows it. -/
theorem no_fatal_after_type_error :
    (validateOptions failingCallbackOptions).1 = true
    ∧ failingCallbackOptions.failOnMatch = true
    ∧ (scan threeLineEnv failingCallbackOptions (literalRegExp "TODO")
        ["hasOwnProperty"]).numMatches = 1
    ∧ searchTask threeLineEnv failingCallbackOptions [["hasOwnProperty"]]
        = [Effect.isDir "hasOwnProperty", Effect.fileExists "hasOwnProperty",
           Effect.read "hasOwnProperty",
           Effect.onMatch { name := "notify" } "hasOwnProperty" 1 "TODO",
           Effect.thrown "TypeError"]
    ∧ fatals (searchTask threeLineEnv failingCallbackOptions [["hasOwnProperty"]]) = []
    ∧ fileWrites (searchTask threeLineEnv failingCallbackOptions [["hasOwnProperty"]]) = []
    ∧ searchTask threeLineEnv failingOptions [["A"]]
        = [Effect.isDir "A", Effect.fileExists "A", Effect.read "A",
           Effect.fileWrite (some "out.json")
             "\x7b\n\t\"numResults\": 2,\n\t\"creationDate\": \"2013-05-09 07:05:03\",\n\t\"results\": \x7b\n\t\t\"A\": [\n\t\t\t\x7b\n\t\t\t\t\"line\": 1,\n\t\t\t\t\"match\": \"TODO\"\n\t\t\t\x7d,\n\t\t\t\x7b\n\t\t\t\t\"line\": 3,\n\t\t\t\t\"match\": \"TODO\"\n\t\t\t\x7d\n\t\t]\n\t\x7d\n\x7d",
           Effect.failFatal "Matches of /TODO/g found",
           Effect.onComplete { name := "done" } 2
             { own := [("A", [{ line := 1, matched := "TODO" },
                              { line := 3, matched := "TODO" }])],
               proto := none },
           Effect.logWriteln "Num matches: 2"] := by
  refine ⟨by decide, rfl, by rfl, by rfl, by rfl, by rfl, by rfl⟩

/-- C9 fails on the code: with a callback `onMatch`, a file named `hasOwnProperty` whose lines
1 and 3 match gives one call of `onMatch`, for line 1; at line 3 the `TypeError` of line 67 is
raised before the call of line 74, and the task ends.  In the scenario of the specification
the callback is called for lines 1 and 3 of `A`, and not for `B`. -/
theorem onMatch_not_called_after_type_error :
    callbackOptions.onMatch = some { name := "notify" }
    ∧ matchingLineCount (literalRegExp "TODO") (threeLineEnv.read "hasOwnProperty") = 2
    ∧ onMatchCalls (searchTask threeLineEnv callbackOptions [["hasOwnProperty"]])
        = [({ name := "notify" }, "hasOwnProperty", { line := 1, matched := "TODO" })]
    ∧ searchTask threeLineEnv callbackOptions [["hasOwnProperty"]]
        = [Effect.isDir "hasOwnProperty", Effect.fileExists "hasOwnProperty",
           Effect.read "hasOwnProperty",
           Effect.onMatch { name := "notify" } "hasOwnProperty" 1 "TODO",
           Effect.thrown "TypeError"]
    ∧ onMatchCalls (searchTask todoEnv callbackOptions [["A", "B"]])
        = [({ name := "notify" }, "A", { line := 1, matched := "TODO" }),
           ({ name := "notify" }, "A", { line := 3, matched := "TODO" })] := by
  refine ⟨rfl, by decide, by rfl, by rfl, by rfl⟩

set_option maxRecDepth 8192 in
/-- C17 fails on the code: a file named `__proto__` whose lines 1 and 3 match is scanned.  The
count is 2 and every format renders it, but the results section holds no entry: the records
went to the array that line 68 installed as prototype of `matches`, which has no own key, so
the encoders only visit the inherited index `0`, whose value has no `length`.  The JSON report
shows an empty group named `0`, the XML and text reports show no result. -/
theorem report_count_without_entries :
    (scan threeLineEnv todoOptions (literalRegExp "TODO") ["__proto__"]).numMatches = 2
    ∧ forInKeys (scan threeLineEnv todoOptions (literalRegExp "TODO") ["__proto__"]).results
        = ["0"]
    ∧ renderedEntries (scan threeLineEnv todoOptions (literalRegExp "TODO")
        ["__proto__"]).results = []
    ∧ fileWrites (searchTask threeLineEnv todoOptions [["__proto__"]])
        = [(some "out.json",
            "\x7b\n\t\"numResults\": 2,\n\t\"creationDate\": \"2013-05-09 07:05:03\",\n\t\"results\": \x7b\n\t\t\"0\": [\n\n\t\t]\n\t\x7d\n\x7d")]
    ∧ fileWrites (searchTask threeLineEnv { todoOptions with logFormat := "xml" }
        [["__proto__"]])
        = [(some "out.json",
            "<?xml version=\"1.0\"?>\n<search>\n\t<numResults>2</numResults>\n\t<creationDate>2013-05-09 07:05:03</creationDate>\n\t<results>\n\t</results>\n</search>")]
    ∧ fileWrites (searchTask threeLineEnv { todoOptions with logFormat := "text" }
        [["__proto__"]])
        = [(some "out.json", "Num results: 2\nCreation date: 2013-05-09 07:05:03\nResults:\n")]
    ∧ fileWrites (searchTask threeLineEnv { todoOptions with logFormat := "text" } [["A"]])
        = [(some "out.json",
            "Num results: 2\nCreation date: 2013-05-09 07:05:03\nResults:\n\tFile: A\n\tLine: 1\n\tMatch: TODO\n\n\tFile: A\n\tLine: 3\n\tMatch: TODO\n\n")] := by
  refine ⟨by rfl, by rfl, by rfl, by rfl, by rfl, by rfl, by rfl⟩

/-- C4: for every source list `f.src` and every directory and existence predicate, the list
`filePaths` that is scanned and handed to `_generateLogFile` is the sub-sequence of `f.src` of
the paths that are not directories and exist, order and multiplicities kept, whatever the
pattern and the file contents; a directory gives no warning, and each path that is neither a
directory nor an existing file gives exactly one warning.  The run of a group is the filter,
the scan of this list and then, unless the scan raised an exception, the effects of lines 86
to 95, which start with `_generateLogFile` on this list. -/
theorem filePaths_eq_existing_non_directories (env : Env) (src : List String) :
    (filterFiles env src).filePaths = (src.filter fun p => !env.isDir p && env.fileExists p)
    ∧ warnings (filterFiles env src).trace
        = (src.filter fun p => !env.isDir p && !env.fileExists p).map
            (fun p => "Source file \"" ++ p ++ "\" not found.")
    ∧ ∀ (options : Options) (re : RegExp),
        (searchGroup env options re src).filePaths
          = (src.filter fun p => !env.isDir p && env.fileExists p)
        ∧ warnings (searchGroup env options re src).trace
            = warnings (filterFiles env src).trace
        ∧ (searchGroup env options re src).trace
            = (filterFiles env src).trace
              ++ (scan env options re
                    (src.filter fun p => !env.isDir p && env.fileExists p)).trace
              ++ (if (scan env options re
                    (src.filter fun p => !env.isDir p && env.fileExists p)).thrown = true
                  then [Effect.thrown "TypeError"]
                  else afterScan env options re
                    (src.filter fun p => !env.isDir p && env.fileExists p)
                    (scan env options re
                      (src.filter fun p => !env.isDir p && env.fileExists p)).results
                    (scan env options re
                      (src.filter fun p => !env.isDir p && env.fileExists p)).numMatches)
        ∧ ∃ post, afterScan env options re
              (src.filter fun p => !env.isDir p && env.fileExists p)
              (scan env options re
                (src.filter fun p => !env.isDir p && env.fileExists p)).results
              (scan env options re
                (src.filter fun p => !env.isDir p && env.fileExists p)).numMatches
            = generateLogFile env options
                (src.filter fun p => !env.isDir p && env.fileExists p)
                (scan env options re
                  (src.filter fun p => !env.isDir p && env.fileExists p)).results
                (scan env options re
                  (src.filter fun p => !env.isDir p && env.fileExists p)).numMatches
              ++ post := by
  have hw : warnings (filterFiles env src).trace
      = (src.filter fun p => !env.isDir p && !env.fileExists p).map
          (fun p => "Source file \"" ++ p ++ "\" not found.") := by
    rw [filterFiles_trace]
    induction src with
    | nil => simp [warnings]
    | cons p rest ih =>
      rw [List.flatMap_cons, warnings_append, ih]
      cases hd : env.isDir p <;> cases he : env.fileExists p <;>
        simp [warnings, filterBody, hd, he, List.filter_cons]
  refine ⟨filterFiles_filePaths env src, hw, ?_⟩
  intro options re
  refine ⟨searchGroup_filePaths env options re src, ?_, searchGroup_trace env options re src,
    ⟨_, afterScan_eq env options re _ _ _⟩⟩
  rw [searchGroup_trace, warnings_append, warnings_append,
    (scan_trace_quiet env options re _).2.2.2.2]
  split
  · simp [warnings]
  · rw [(afterScan_quiet env options re _ _ _).2]
    simp

/-- C5: `_validateOptions` returns `true` exactly when `searchString` is not `null` and
(`logFormat` is `"console"` or `logFile` is not `null`); it logs one error per violated
condition and nothing else, so a `null` `searchString` with a `null` `logFile` and a format
other than `"console"` logs exactly two errors and returns `false`, and the format `"console"`
with a `null` `logFile` and a `searchString` logs none and returns `true`. -/
theorem validateOptions_true_iff_and_error_count (options : Options) :
    ((validateOptions options).1 = true
      ↔ options.searchString ≠ none
        ∧ (options.logFormat = "console" ∨ options.logFile ≠ none))
    ∧ (validateOptions options).2.length
        = (if options.searchString.isNone then 1 else 0)
          + (if options.logFormat ≠ "console" ∧ options.logFile = none then 1 else 0)
    ∧ (∀ e ∈ (validateOptions options).2, ∃ msg, e = Effect.logError "Error: " msg)
    ∧ (options.searchString = none → options.logFile = none → options.logFormat ≠ "console" →
        validateOptions options
          = (false, [Effect.logError "Error: " "Missing options.searchString value.",
                     Effect.logError "Error: " "Missing options.logFile value."]))
    ∧ (options.searchString ≠ none → options.logFile = none → options.logFormat = "console" →
        validateOptions options = (true, [])) := by
  refine ⟨?_, ?_, ?_, ?_, ?_⟩
  · cases hs : options.searchString <;> cases hl : options.logFile <;>
      by_cases hc : options.logFormat = "console" <;>
      simp [validateOptions, optionErrors, hs, hl, hc]
  · cases hs : options.searchString <;> cases hl : options.logFile <;>
      by_cases hc : options.logFormat = "console" <;>
      simp [validateOptions, optionErrors, hs, hl, hc]
  · exact validateOptions_effects options
  · intro hs hl hc
    simp [validateOptions, optionErrors, hs, hl, hc]
  · intro hs hl hc
    cases hs2 : options.searchString with
    | none => exact absurd hs2 hs
    | some ss => simp [validateOptions, optionErrors, hs2, hl, hc]

/-- C5 on the two scenarios of the specification: nothing but a format `"xml"` is configured,
and a console report is configured without a log file. -/
theorem validateOptions_true_iff_and_error_count_witness :
    validateOptions { todoOptions with searchString := none, logFile := none, logFormat := "xml" }
        = (false, [Effect.logError "Error: " "Missing options.searchString value.",
                   Effect.logError "Error: " "Missing options.logFile value."])
    ∧ validateOptions { todoOptions with logFile := none, logFormat := "console" }
        = (true, []) :=
  ⟨(validateOptions_true_iff_and_error_count
      { todoOptions with searchString := none, logFile := none, logFormat := "xml" }).2.2.2.1
      rfl rfl (by decide),
   (validateOptions_true_iff_and_error_count
      { todoOptions with logFile := none, logFormat := "console" }).2.2.2.2
      (by simp [todoOptions]) rfl rfl⟩

/-- C6: when the options fail validation the task only logs the validation errors: its
effects are those of `_validateOptions`, each an error message and at least one; there is no
file-system query or read, no report written or printed, no call of `onMatch` or `onComplete`
and no fatal failure. -/
theorem searchTask_invalid_options_only_logs_errors (env : Env) (options : Options)
    (files : List (List String)) (h : (validateOptions options).1 = false) :
    searchTask env options files = (validateOptions options).2
    ∧ searchTask env options files ≠ []
    ∧ (∀ e ∈ searchTask env options files, ∃ msg, e = Effect.logError "Error: " msg)
    ∧ (∀ e ∈ searchTask env options files, e.isFileQuery = false)
    ∧ fileWrites (searchTask env options files) = []
    ∧ logWritelns (searchTask env options files) = []
    ∧ onMatchCalls (searchTask env options files) = []
    ∧ onCompleteCalls (searchTask env options files) = []
    ∧ fatals (searchTask env options files) = [] := by
  have h1 : searchTask env options files = (validateOptions options).2 := by
    simp [searchTask, h]
  have h2 : ∀ e ∈ searchTask env options files, ∃ msg, e = Effect.logError "Error: " msg := by
    rw [h1]
    exact validateOptions_effects options
  refine ⟨h1, ?_, h2, ?_, ?_, ?_, ?_, ?_, ?_⟩
  · rw [h1]
    intro hnil
    simp [validateOptions] at h hnil
    exact h hnil
  · intro e he
    obtain ⟨msg, rfl⟩ := h2 e he
    rfl
  all_goals
    simp only [fileWrites, logWritelns, onMatchCalls, onCompleteCalls, fatals,
      List.filterMap_eq_nil_iff]
    intro e he
    obtain ⟨msg, rfl⟩ := h2 e he
    rfl

/-- C6 on a run without `searchString` and without `logFile`: the two errors are the whole
trace, although the file group names an existing file. -/
theorem searchTask_invalid_options_only_logs_errors_witness :
    (validateOptions { todoOptions with searchString := none, logFile := none }).1 = false
    ∧ searchTask todoEnv { todoOptions with searchString := none, logFile := none } [["A", "B"]]
        = [Effect.logError "Error: " "Missing options.searchString value.",
           Effect.logError "Error: " "Missing options.logFile value."] :=
  ⟨by decide,
   (searchTask_invalid_options_only_logs_errors todoEnv
      { todoOptions with searchString := none, logFile := none } [["A", "B"]] (by decide)).1⟩

/-- C7 as stated fails: the options with the pattern `(` pass validation, but
`new RegExp("(", "g")` raises a `SyntaxError` (line 33) and the task ends before any file
group is run: no report is written or printed for the groups `A` and `B`. -/
theorem no_report_when_pattern_rejected :
    (validateOptions illFormedOptions).1 = true
    ∧ illFormedOptions.searchString = some (SearchString.str "(")
    ∧ toRegExp todoEnv (SearchString.str "(") = none
    ∧ searchTask todoEnv illFormedOptions [["A"], ["B"]] = [Effect.thrown "SyntaxError"]
    ∧ fileWrites (searchTask todoEnv illFormedOptions [["A"], ["B"]]) = []
    ∧ logWritelns (searchTask todoEnv illFormedOptions [["A"], ["B"]]) = [] := by
  refine ⟨by decide, rfl, by rfl, by rfl, by rfl, by rfl⟩

/-- C7, amended: in a validated run whose pattern is a regular expression or a string that
`new RegExp` accepts, for file groups scanned without exception, the task is the sequence of
the runs of its groups, and in the run of each group `_generateLogFile` emits the report
exactly once, right after the scan.  With a format other than `"console"` its only effect is
one write of the rendered content (the JSON, XML or text encoding, by format) to `logFile`,
also when `numResults` is 0, and a validated run has a `logFile` to write to; with the format
`"console"` its only effect is one `writeln` of the text encoding.  These are the only writes
of the task, one per group, and, apart from the `Num matches` line that closes each group,
the only `writeln`s.  When `new RegExp` rejects the pattern, the task ends with the
`SyntaxError` before any group is run, and nothing is written or printed. -/
theorem generateLogFile_emits_report_once (env : Env) (options : Options)
    (files : List (List String)) (ss : SearchString)
    (hv : (validateOptions options).1 = true) (hss : options.searchString = some ss) :
    (∀ filePaths results numResults,
        generateLogFile env options filePaths results numResults
          = if options.logFormat = "console"
            then [Effect.logWriteln
                    (getTextLogFormat env options filePaths results numResults)]
            else [Effect.fileWrite options.logFile
                    (logContent env options filePaths results numResults)])
    ∧ (∀ filePaths results, options.logFormat ≠ "console" →
        generateLogFile env options filePaths results 0
          = [Effect.fileWrite options.logFile (logContent env options filePaths results 0)])
    ∧ (∀ filePaths results numResults,
        (options.logFormat = "json" → logContent env options filePaths results numResults
            = getJSONLogFormat env options filePaths results numResults)
        ∧ (options.logFormat = "xml" → logContent env options filePaths results numResults
            = getXMLLogFormat env options filePaths results numResults)
        ∧ (options.logFormat = "text" → logContent env options filePaths results numResults
            = getTextLogFormat env options filePaths results numResults))
    ∧ (options.logFormat ≠ "console" → ∃ path, options.logFile = some path)
    ∧ (∀ re, toRegExp env ss = some re →
        (∀ src ∈ files, (scan env options re (keptPaths env src)).thrown = false) →
        searchTask env options files
          = (files.flatMap fun src => (searchGroup env options re src).trace)
        ∧ (∀ src ∈ files,
            (searchGroup env options re src).trace
              = (filterFiles env src).trace
                ++ (scan env options re (keptPaths env src)).trace
                ++ generateLogFile env options (keptPaths env src)
                    (scan env options re (keptPaths env src)).results
                    (scan env options re (keptPaths env src)).numMatches
                ++ ((if 0 < (scan env options re (keptPaths env src)).numMatches
                        ∧ options.failOnMatch = true
                     then [Effect.failFatal ("Matches of " ++ re.toString ++ " found")]
                     else [])
                  ++ ((match options.onComplete with
                      | some cb => [Effect.onComplete cb
                          (scan env options re (keptPaths env src)).numMatches
                          (scan env options re (keptPaths env src)).results]
                      | none => [])
                    ++ [Effect.logWriteln ("Num matches: "
                          ++ toString (scan env options re (keptPaths env src)).numMatches)])))
        ∧ fileWrites (searchTask env options files)
            = (if options.logFormat = "console" then []
               else files.map fun src =>
                 (options.logFile,
                  logContent env options (keptPaths env src)
                    (scan env options re (keptPaths env src)).results
                    (scan env options re (keptPaths env src)).numMatches))
        ∧ logWritelns (searchTask env options files)
            = (files.flatMap fun src =>
                (if options.logFormat = "console"
                 then [getTextLogFormat env options (keptPaths env src)
                        (scan env options re (keptPaths env src)).results
                        (scan env options re (keptPaths env src)).numMatches]
                 else [])
                ++ ["Num matches: "
                      ++ toString (scan env options re (keptPaths env src)).numMatches]))
    ∧ (toRegExp env ss = none →
        searchTask env options files = [Effect.thrown "SyntaxError"]
        ∧ fileWrites (searchTask env options files) = []
        ∧ logWritelns (searchTask env options files) = []) := by
  refine ⟨?_, ?_, ?_, ?_, ?_, ?_⟩
  · intro filePaths results numResults
    by_cases hc : options.logFormat = "console"
    · simp [generateLogFile, hc, logContent_console]
    · simp [generateLogFile, hc]
  · intro filePaths results hc
    simp [generateLogFile, hc]
  · intro filePaths results numResults
    refine ⟨?_, ?_, ?_⟩
    · intro h
      simp [logContent, h]
    · intro h
      simp [logContent, h]
    · intro h
      simp [logContent, h]
  · intro hc
    cases hl : options.logFile with
    | some path => exact ⟨path, rfl⟩
    | none =>
      cases hs : options.searchString <;>
        simp [validateOptions, optionErrors, hl, hc, hs] at hv
  · intro re hre hq
    have htask := searchTask_of_compiled env options files ss re hv hss hre hq
    refine ⟨htask, ?_, ?_, ?_⟩
    · intro src hsrc
      rw [searchGroup_trace_of_not_thrown env options re src (hq src hsrc), afterScan_eq,
        ← List.append_assoc]
    · rw [htask, fileWrites_flatMap]
      have hg : ∀ src ∈ files, fileWrites (searchGroup env options re src).trace
          = if options.logFormat = "console" then []
            else [(options.logFile,
                  logContent env options (keptPaths env src)
                    (scan env options re (keptPaths env src)).results
                    (scan env options re (keptPaths env src)).numMatches)] := by
        intro src hsrc
        rw [searchGroup_trace_of_not_thrown env options re src (hq src hsrc)]
        simp only [fileWrites_append, (filterFiles_trace_quiet env src).1,
          (scan_trace_quiet env options re _).1, afterScan_fileWrites, List.nil_append]
        by_cases hc : options.logFormat = "console" <;> simp [hc]
      rw [List.flatMap_congr hg]
      by_cases hc : options.logFormat = "console"
      · simp [hc]
      · simp only [hc, if_false]
        exact flatMap_singleton_map _ files
    · rw [htask, logWritelns_flatMap]
      apply List.flatMap_congr
      intro src hsrc
      rw [searchGroup_trace_of_not_thrown env options re src (hq src hsrc)]
      simp only [logWritelns_append, (filterFiles_trace_quiet env src).2.1,
        (scan_trace_quiet env options re _).2.1, afterScan_logWritelns, List.nil_append]
      by_cases hc : options.logFormat = "console"
      · simp [hc, logContent_console]
      · simp [hc]
  · intro hre
    rw [searchTask_of_rejected env options files ss hv hss hre]
    exact ⟨rfl, rfl, rfl⟩

/-- C7, amended, on the scenario with two file groups: the group of `A` and `B` and the group
of a missing path and a directory, which scans nothing.  Each group writes its JSON report to
`out.json`, the second one with `numResults` 0; with the format `"console"` and no `logFile`
the reports are printed instead; with the pattern `(` nothing is written. -/
theorem generateLogFile_emits_report_once_witness :
    (validateOptions todoOptions).1 = true
    ∧ toRegExp todoEnv (SearchString.str "TODO") = some (literalRegExp "TODO")
    ∧ (∀ src ∈ [["A", "B"], ["missing", "dir"]],
        (scan todoEnv todoOptions (literalRegExp "TODO") (keptPaths todoEnv src)).thrown = false)
    ∧ fileWrites (searchTask todoEnv todoOptions [["A", "B"], ["missing", "dir"]])
        = [(some "out.json",
            "\x7b\n\t\"numResults\": 2,\n\t\"creationDate\": \"2013-05-09 07:05:03\",\n\t\"results\": \x7b\n\t\t\"A\": [\n\t\t\t\x7b\n\t\t\t\t\"line\": 1,\n\t\t\t\t\"match\": \"TODO\"\n\t\t\t\x7d,\n\t\t\t\x7b\n\t\t\t\t\"line\": 3,\n\t\t\t\t\"match\": \"TODO\"\n\t\t\t\x7d\n\t\t]\n\t\x7d\n\x7d"),
           (some "out.json",
            "\x7b\n\t\"numResults\": 0,\n\t\"creationDate\": \"2013-05-09 07:05:03\",\n\t\"results\": \x7b\n\n\t\x7d\n\x7d")]
    ∧ logWritelns (searchTask todoEnv todoOptions [["A", "B"], ["missing", "dir"]])
        = ["Num matches: 2", "Num matches: 0"]
    ∧ searchTask todoEnv { todoOptions with logFile := none, logFormat := "console" }
        [["missing", "dir"]]
        = [Effect.isDir "missing", Effect.fileExists "missing",
           Effect.logWarn "Source file \"missing\" not found.", Effect.isDir "dir",
           Effect.logWriteln "Num results: 0\nCreation date: 2013-05-09 07:05:03\nResults:\n",
           Effect.logWriteln "Num matches: 0"]
    ∧ fileWrites (searchTask todoEnv illFormedOptions [["A", "B"], ["missing", "dir"]]) = [] :=
  ⟨by decide, by rfl, by decide,
   (((generateLogFile_emits_report_once todoEnv todoOptions [["A", "B"], ["missing", "dir"]]
      (SearchString.str "TODO") (by decide) rfl).2.2.2.2.1 (literalRegExp "TODO") (by rfl)
      (by decide)).2.2.1).trans (by rfl),
   (((generateLogFile_emits_report_once todoEnv todoOptions [["A", "B"], ["missing", "dir"]]
      (SearchString.str "TODO") (by decide) rfl).2.2.2.2.1 (literalRegExp "TODO") (by rfl)
      (by decide)).2.2.2).trans (by rfl),
   by rfl,
   ((generateLogFile_emits_report_once todoEnv illFormedOptions
      [["A", "B"], ["missing", "dir"]] (SearchString.str "(") (by decide) rfl).2.2.2.2.2
      (by rfl)).2.1⟩

/-- C10 as stated fails: the options with the pattern `(` and a callback `onComplete` pass
validation, but `new RegExp("(", "g")` raises a `SyntaxError` (line 33) and the task ends
before the file group is run: `onComplete` is not called. -/
theorem onComplete_not_called_when_pattern_rejected :
    (validateOptions illFormedOptions).1 = true
    ∧ illFormedOptions.onComplete = some { name := "done" }
    ∧ illFormedOptions.searchString = some (SearchString.str "(")
    ∧ toRegExp todoEnv (SearchString.str "(") = none
    ∧ searchTask todoEnv illFormedOptions [["A"]] = [Effect.thrown "SyntaxError"]
    ∧ onCompleteCalls (searchTask todoEnv illFormedOptions [["A"]]) = [] := by
  refine ⟨by decide, rfl, rfl, by rfl, by rfl, by rfl⟩

/-- C10, amended: in a validated run with a callback `onComplete` whose pattern is a regular
expression or a string that `new RegExp` accepts, for file groups scanned without exception,
the task is the sequence of the runs of its groups and calls `onComplete` exactly once per
group, in the order of the groups, with the match count of the group (the number of matching
lines of its scanned files) and its `matches` object, whatever `failOnMatch` and the count
are: in the run of a group the call stands after the scan and the report, and after the
fatal failure when there is one, and only the line `Num matches` follows it.  When
`new RegExp` rejects the pattern, the task ends with the `SyntaxError` before any group is
run, and `onComplete` is not called. -/
theorem onComplete_called_once_per_group (env : Env) (options : Options)
    (files : List (List String)) (ss : SearchString) (cb : Callback)
    (hv : (validateOptions options).1 = true) (hss : options.searchString = some ss)
    (h : options.onComplete = some cb) :
    (∀ re, toRegExp env ss = some re →
      (∀ src ∈ files, (scan env options re (keptPaths env src)).thrown = false) →
      onCompleteCalls (searchTask env options files)
        = (files.map fun src =>
            (cb, (scan env options re (keptPaths env src)).numMatches,
              (scan env options re (keptPaths env src)).results))
      ∧ (∀ src ∈ files, (scan env options re (keptPaths env src)).numMatches
          = ((keptPaths env src).map fun f => matchingLineCount re (env.read f)).sum)
      ∧ searchTask env options files
          = (files.flatMap fun src => (searchGroup env options re src).trace)
      ∧ ∀ src ∈ files,
          (searchGroup env options re src).trace
            = (filterFiles env src).trace
              ++ (scan env options re (keptPaths env src)).trace
              ++ generateLogFile env options (keptPaths env src)
                  (scan env options re (keptPaths env src)).results
                  (scan env options re (keptPaths env src)).numMatches
              ++ ((if 0 < (scan env options re (keptPaths env src)).numMatches
                      ∧ options.failOnMatch = true
                   then [Effect.failFatal ("Matches of " ++ re.toString ++ " found")]
                   else [])
                ++ [Effect.onComplete cb (scan env options re (keptPaths env src)).numMatches
                      (scan env options re (keptPaths env src)).results,
                    Effect.logWriteln ("Num matches: "
                      ++ toString (scan env options re (keptPaths env src)).numMatches)]))
    ∧ (toRegExp env ss = none →
        searchTask env options files = [Effect.thrown "SyntaxError"]
        ∧ onCompleteCalls (searchTask env options files) = []) := by
  refine ⟨?_, ?_⟩
  · intro re hre hq
    have htask := searchTask_of_compiled env options files ss re hv hss hre hq
    refine ⟨?_, ?_, htask, ?_⟩
    · rw [htask, onCompleteCalls_flatMap]
      have hg : ∀ src ∈ files, onCompleteCalls (searchGroup env options re src).trace
          = [(cb, (scan env options re (keptPaths env src)).numMatches,
              (scan env options re (keptPaths env src)).results)] := by
        intro src hsrc
        rw [searchGroup_trace_of_not_thrown env options re src (hq src hsrc)]
        simp only [onCompleteCalls_append, (filterFiles_trace_quiet env src).2.2.2.1,
          (scan_trace_quiet env options re _).2.2.1, afterScan_onCompleteCalls, h,
          List.nil_append]
      rw [List.flatMap_congr hg]
      exact flatMap_singleton_map _ files
    · intro src hsrc
      exact (scan_of_not_thrown env options re _ (hq src hsrc)).1
    · intro src hsrc
      rw [searchGroup_trace_of_not_thrown env options re src (hq src hsrc), afterScan_eq,
        ← List.append_assoc, h]
      rfl
  · intro hre
    rw [searchTask_of_rejected env options files ss hv hss hre]
    exact ⟨rfl, rfl⟩

/-- C10, amended, on the scenario with `failOnMatch` set, both callbacks and the groups of `A`
and of `B`: one call per group, with the count 2 and the records of `A` after the fatal
failure of the first group, and with the count 0 and no record for the second group; with
the pattern `(` there is no call. -/
theorem onComplete_called_once_per_group_witness :
    (validateOptions failingCallbackOptions).1 = true
    ∧ toRegExp todoEnv (SearchString.str "TODO") = some (literalRegExp "TODO")
    ∧ (∀ src ∈ [["A"], ["B"]],
        (scan todoEnv failingCallbackOptions (literalRegExp "TODO")
          (keptPaths todoEnv src)).thrown = false)
    ∧ onCompleteCalls (searchTask todoEnv failingCallbackOptions [["A"], ["B"]])
        = [({ name := "done" }, 2,
            { own := [("A", [{ line := 1, matched := "TODO" },
                             { line := 3, matched := "TODO" }])],
              proto := none }),
           ({ name := "done" }, 0, { own := [], proto := none })]
    ∧ fatals (searchTask todoEnv failingCallbackOptions [["A"], ["B"]])
        = ["Matches of /TODO/g found"]
    ∧ onCompleteCalls (searchTask todoEnv illFormedOptions [["A"], ["B"]]) = [] :=
  ⟨by decide, by rfl, by decide,
   (((onComplete_called_once_per_group todoEnv failingCallbackOptions [["A"], ["B"]]
      (SearchString.str "TODO") { name := "done" } (by decide) rfl rfl).1
      (literalRegExp "TODO") (by rfl) (by decide)).1).trans (by rfl),
   by rfl,
   ((onComplete_called_once_per_group todoEnv illFormedOptions [["A"], ["B"]]
      (SearchString.str "(") { name := "done" } (by decide) rfl rfl).2 (by rfl)).2⟩

/-- C19 as stated fails: with the format `"yaml"`, a `logFile` and the `searchString` `(`,
validation succeeds, but `new RegExp("(", "g")` raises a `SyntaxError` (line 33): no file is
scanned and nothing is written to `logFile`. -/
theorem unknown_logFormat_nothing_written_when_pattern_rejected :
    validateOptions illFormedYamlOptions = (true, [])
    ∧ illFormedYamlOptions.logFormat = "yaml"
    ∧ illFormedYamlOptions.logFile = some "out.json"
    ∧ illFormedYamlOptions.searchString = some (SearchString.str "(")
    ∧ toRegExp todoEnv (SearchString.str "(") = none
    ∧ searchTask todoEnv illFormedYamlOptions [["A"]] = [Effect.thrown "SyntaxError"]
    ∧ fileWrites (searchTask todoEnv illFormedYamlOptions [["A"]]) = [] := by
  refine ⟨by decide, rfl, rfl, rfl, by rfl, by rfl, by rfl⟩

/-- C19, amended: with a `logFormat` that is none of `"json"`, `"xml"`, `"text"`,
`"console"`, a `logFile` and a `searchString`, validation succeeds without an error and
`_generateLogFile` writes the empty string to `logFile` whatever the scan result: the format
is neither rejected nor replaced by `"json"`.  When the `searchString` is a regular
expression or a string that `new RegExp` accepts, the task runs its file groups, and each
group scanned without exception is filtered and scanned as usual and then writes the empty
string; these are the only writes of the task, one per group.  When `new RegExp` rejects the
`searchString`, the task ends with the `SyntaxError` before any group is run and nothing is
written. -/
theorem unknown_logFormat_writes_empty_report (env : Env) (options : Options)
    (files : List (List String)) (path : String) (ss : SearchString)
    (hjson : options.logFormat ≠ "json") (hxml : options.logFormat ≠ "xml")
    (htext : options.logFormat ≠ "text") (hconsole : options.logFormat ≠ "console")
    (hfile : options.logFile = some path) (hss : options.searchString = some ss) :
    validateOptions options = (true, [])
    ∧ (∀ filePaths results numResults,
        generateLogFile env options filePaths results numResults
          = [Effect.fileWrite (some path) ""])
    ∧ (∀ re, toRegExp env ss = some re →
        (∀ src ∈ files, (scan env options re (keptPaths env src)).thrown = false) →
        searchTask env options files
          = (files.flatMap fun src => (searchGroup env options re src).trace)
        ∧ (∀ src ∈ files,
            (searchGroup env options re src).trace
              = (filterFiles env src).trace
                ++ (scan env options re (keptPaths env src)).trace
                ++ [Effect.fileWrite (some path) ""]
                ++ ((if 0 < (scan env options re (keptPaths env src)).numMatches
                        ∧ options.failOnMatch = true
                     then [Effect.failFatal ("Matches of " ++ re.toString ++ " found")]
                     else [])
                  ++ ((match options.onComplete with
                      | some cb => [Effect.onComplete cb
                          (scan env options re (keptPaths env src)).numMatches
                          (scan env options re (keptPaths env src)).results]
                      | none => [])
                    ++ [Effect.logWriteln ("Num matches: "
                          ++ toString (scan env options re (keptPaths env src)).numMatches)])))
        ∧ fileWrites (searchTask env options files) = files.map (fun _ => (some path, "")))
    ∧ (toRegExp env ss = none →
        searchTask env options files = [Effect.thrown "SyntaxError"]
        ∧ fileWrites (searchTask env options files) = []) := by
  have hv : validateOptions options = (true, []) := by
    simp [validateOptions, optionErrors, hfile, hss]
  have hv1 : (validateOptions options).1 = true := by rw [hv]
  have hg : ∀ filePaths results numResults,
      generateLogFile env options filePaths results numResults
        = [Effect.fileWrite (some path) ""] := by
    intro filePaths results numResults
    simp [generateLogFile, logContent, hjson, hxml, htext, hconsole, hfile]
  refine ⟨hv, hg, ?_, ?_⟩
  · intro re hre hq
    have htask := searchTask_of_compiled env options files ss re hv1 hss hre hq
    refine ⟨htask, ?_, ?_⟩
    · intro src hsrc
      rw [searchGroup_trace_of_not_thrown env options re src (hq src hsrc), afterScan_eq, hg,
        ← List.append_assoc]
    · rw [htask, fileWrites_flatMap]
      have hw : ∀ src ∈ files, fileWrites (searchGroup env options re src).trace
          = [(some path, "")] := by
        intro src hsrc
        rw [searchGroup_trace_of_not_thrown env options re src (hq src hsrc)]
        simp only [fileWrites_append, (filterFiles_trace_quiet env src).1,
          (scan_trace_quiet env options re _).1, afterScan_fileWrites, List.nil_append]
        simp [hconsole, logContent, hjson, hxml, htext, hfile]
      rw [List.flatMap_congr hw]
      exact flatMap_singleton_map _ files
  · intro hre
    rw [searchTask_of_rejected env options files ss hv1 hss hre]
    exact ⟨rfl, rfl⟩

/-- C19, amended, in the scenario with the format `"yaml"` and the groups of `A` and of `B`:
the run of `A` finds its two matches, the run of `B` none, and each writes the empty string
to `out.json` and ends with its count; with the pattern `(` nothing is written. -/
theorem unknown_logFormat_writes_empty_report_witness :
    toRegExp todoEnv (SearchString.str "TODO") = some (literalRegExp "TODO")
    ∧ (∀ src ∈ [["A"], ["B"]],
        (scan todoEnv yamlOptions (literalRegExp "TODO") (keptPaths todoEnv src)).thrown = false)
    ∧ searchTask todoEnv yamlOptions [["A"], ["B"]]
      = [Effect.isDir "A", Effect.fileExists "A", Effect.read "A",
         Effect.fileWrite (some "out.json") "", Effect.logWriteln "Num matches: 2",
         Effect.isDir "B", Effect.fileExists "B", Effect.read "B",
         Effect.fileWrite (some "out.json") "", Effect.logWriteln "Num matches: 0"]
    ∧ validateOptions yamlOptions = (true, [])
    ∧ fileWrites (searchTask todoEnv yamlOptions [["A"], ["B"]])
      = [(some "out.json", ""), (some "out.json", "")]
    ∧ fileWrites (searchTask todoEnv illFormedYamlOptions [["A"], ["B"]]) = [] :=
  ⟨by rfl, by decide, by rfl,
   (unknown_logFormat_writes_empty_report todoEnv yamlOptions [["A"], ["B"]] "out.json"
      (SearchString.str "TODO") (by decide) (by decide) (by decide) (by decide) rfl rfl).1,
   ((unknown_logFormat_writes_empty_report todoEnv yamlOptions [["A"], ["B"]] "out.json"
      (SearchString.str "TODO") (by decide) (by decide) (by decide) (by decide) rfl
      rfl).2.2.1 (literalRegExp "TODO") (by rfl) (by decide)).2.2,
   ((unknown_logFormat_writes_empty_report todoEnv illFormedYamlOptions [["A"], ["B"]]
      "out.json" (SearchString.str "(") (by decide) (by decide) (by decide) (by decide) rfl
      rfl).2.2.2 (by rfl)).2⟩

/-- C20: `_cleanStr(s)` is `s` with one backslash inserted before each double quote: its
length is the length of `s` plus the number of double quotes of `s`, every double quote of
the result stands right after a backslash, removing the backslash before each double quote
gives `s` back, a string without double quote is returned as it is, the characters of `s`
(backslashes included) are handled one by one and kept, and on a string with a double quote
a second application changes the result again. -/
theorem cleanStr_inserts_backslash_before_each_quote (s : String) :
    (cleanStr s).length = s.length + s.data.count '"'
    ∧ (cleanStr s).data.count '"' = s.data.count '"'
    ∧ (∀ i, (cleanStr s).data[i]? = some '"' →
        0 < i ∧ (cleanStr s).data[i - 1]? = some '\\')
    ∧ dropQuoteEscapes (cleanStr s).data = s.data
    ∧ ('"' ∉ s.data → cleanStr s = s)
    ∧ ('"' ∈ s.data → cleanStr (cleanStr s) ≠ cleanStr s)
    ∧ (∀ t : String, cleanStr (s ++ t) = cleanStr s ++ cleanStr t)
    ∧ cleanStr "\\" = "\\"
    ∧ cleanStr "\"" = "\\\"" := by
  refine ⟨?_, ?_, ?_, ?_, ?_, ?_, ?_, by decide, by decide⟩
  · simp only [String.length, cleanStr_data]
    exact clean_length s.data
  · rw [cleanStr_data]
    exact clean_count s.data
  · intro i hi
    rw [cleanStr_data] at hi ⊢
    exact clean_quote_preceded s.data i hi
  · rw [cleanStr_data]
    exact dropQuoteEscapes_clean s.data
  · intro h
    apply String.ext
    rw [cleanStr_data]
    exact clean_of_no_quote s.data h
  · intro h hidem
    have hlen : (cleanStr (cleanStr s)).data.length = (cleanStr s).data.length := by
      rw [hidem]
    rw [cleanStr_data (cleanStr s), clean_length, cleanStr_data s, clean_count] at hlen
    have hpos : 0 < s.data.count '"' := List.count_pos_iff.mpr h
    omega
  · intro t
    apply String.ext
    simp [cleanStr_data, String.data_append, List.flatMap_append]

/-- C20 on the string `a"b\`: five characters, the double quote escaped, the backslash kept. -/
theorem cleanStr_inserts_backslash_before_each_quote_witness :
    '"' ∈ "a\"b\\".data
    ∧ cleanStr "a\"b\\" = "a\\\"b\\"
    ∧ cleanStr (cleanStr "a\"b\\") ≠ cleanStr "a\"b\\" :=
  ⟨by decide, by decide,
   (cleanStr_inserts_backslash_before_each_quote "a\"b\\").2.2.2.2.2.1 (by decide)⟩

/-- C14: for every scan result, list of file paths, value of `outputExaminedFiles` and clock,
the content generated for the format `"console"` is the content generated for the format
`"text"`, namely the text encoding; the two formats differ in the destination only: `"text"`
writes the content to `logFile`, `"console"` prints it with `writeln`. -/
theorem console_content_eq_text_content (env : Env) (options : Options)
    (filePaths : List String) (results : JsObject (List MatchRecord)) (numResults : Nat) :
    logContent env { options with logFormat := "console" } filePaths results numResults
      = logContent env { options with logFormat := "text" } filePaths results numResults
    ∧ logContent env { options with logFormat := "console" } filePaths results numResults
      = getTextLogFormat env options filePaths results numResults
    ∧ generateLogFile env { options with logFormat := "text" } filePaths results numResults
      = [Effect.fileWrite options.logFile
          (getTextLogFormat env options filePaths results numResults)]
    ∧ generateLogFile env { options with logFormat := "console" } filePaths results numResults
      = [Effect.logWriteln (getTextLogFormat env options filePaths results numResults)] := by
  refine ⟨?_, ?_, ?_, ?_⟩ <;>
    simp [logContent, generateLogFile, getTextLogFormat]

/-- C15: for a UTC instant with a year from 1000 to 9999 (month getter 0 to 11, day 1 to 31,
hours up to 23, minutes and seconds up to 59), `_getISODateString` returns the 19 characters
`YYYY-MM-DD HH:MM:SS`: four digits of the year, two digits of the month counted from 1, two
digits each of day, hours, minutes and seconds with a leading `0` below 10, `-` and `:` as
separators, one space between date and time and nothing after the seconds.  The digit
characters are the decimal digits `0` to `9`. -/
theorem getISODateString_format (d : JsDate)
    (hy : 1000 ≤ d.getUTCFullYear ∧ d.getUTCFullYear ≤ 9999)
    (hmo : d.getUTCMonth ≤ 11)
    (hd : 1 ≤ d.getUTCDate ∧ d.getUTCDate ≤ 31)
    (hh : d.getUTCHours ≤ 23) (hmi : d.getUTCMinutes ≤ 59) (hs : d.getUTCSeconds ≤ 59) :
    getISODateString d
      = String.mk
          [Nat.digitChar (d.getUTCFullYear.toNat / 1000),
           Nat.digitChar (d.getUTCFullYear.toNat / 100 % 10),
           Nat.digitChar (d.getUTCFullYear.toNat / 10 % 10),
           Nat.digitChar (d.getUTCFullYear.toNat % 10),
           '-',
           Nat.digitChar ((d.getUTCMonth + 1) / 10), Nat.digitChar ((d.getUTCMonth + 1) % 10),
           '-',
           Nat.digitChar (d.getUTCDate / 10), Nat.digitChar (d.getUTCDate % 10),
           ' ',
           Nat.digitChar (d.getUTCHours / 10), Nat.digitChar (d.getUTCHours % 10),
           ':',
           Nat.digitChar (d.getUTCMinutes / 10), Nat.digitChar (d.getUTCMinutes % 10),
           ':',
           Nat.digitChar (d.getUTCSeconds / 10), Nat.digitChar (d.getUTCSeconds % 10)]
    ∧ (getISODateString d).length = 19
    ∧ ∀ k < 10, Nat.digitChar k = Char.ofNat (48 + k) ∧ (Nat.digitChar k).isDigit = true := by
  have hyear : toString d.getUTCFullYear
      = String.mk [Nat.digitChar (d.getUTCFullYear.toNat / 1000),
          Nat.digitChar (d.getUTCFullYear.toNat / 100 % 10),
          Nat.digitChar (d.getUTCFullYear.toNat / 10 % 10),
          Nat.digitChar (d.getUTCFullYear.toNat % 10)] := by
    obtain ⟨y, hyr⟩ : ∃ y : Nat, d.getUTCFullYear = (y : Int) :=
      ⟨d.getUTCFullYear.toNat, by omega⟩
    have h1 : 1000 ≤ y := by omega
    have h2 : y < 10000 := by omega
    rw [hyr, Int.toNat_ofNat]
    exact toString_four_digits y h1 h2
  have hform : getISODateString d = String.mk
          [Nat.digitChar (d.getUTCFullYear.toNat / 1000),
           Nat.digitChar (d.getUTCFullYear.toNat / 100 % 10),
           Nat.digitChar (d.getUTCFullYear.toNat / 10 % 10),
           Nat.digitChar (d.getUTCFullYear.toNat % 10),
           '-',
           Nat.digitChar ((d.getUTCMonth + 1) / 10), Nat.digitChar ((d.getUTCMonth + 1) % 10),
           '-',
           Nat.digitChar (d.getUTCDate / 10), Nat.digitChar (d.getUTCDate % 10),
           ' ',
           Nat.digitChar (d.getUTCHours / 10), Nat.digitChar (d.getUTCHours % 10),
           ':',
           Nat.digitChar (d.getUTCMinutes / 10), Nat.digitChar (d.getUTCMinutes % 10),
           ':',
           Nat.digitChar (d.getUTCSeconds / 10), Nat.digitChar (d.getUTCSeconds % 10)] := by
    rw [getISODateString, hyear, pad_two_digits (d.getUTCMonth + 1) (by omega),
      pad_two_digits d.getUTCDate (by omega), pad_two_digits d.getUTCHours (by omega),
      pad_two_digits d.getUTCMinutes (by omega), pad_two_digits d.getUTCSeconds (by omega)]
    rfl
  refine ⟨hform, ?_, by decide⟩
  rw [hform]
  rfl

/-- C15 at 9 May 2013, 07:05:03 UTC (month getter 4). -/
theorem getISODateString_format_witness :
    getISODateString todoEnv.now = "2013-05-09 07:05:03"
    ∧ (getISODateString todoEnv.now).length = 19 :=
  ⟨by decide,
   (getISODateString_format todoEnv.now (by decide) (by decide) (by decide) (by decide)
      (by decide) (by decide)).2.1⟩

/-- C13: for each of the JSON, XML and text encoders, with `outputExaminedFiles` unset the
content is the same for any two `filePaths` lists and is a part that does not depend on
`filePaths` followed by the closing text of the format, with no examined-files section; with
`outputExaminedFiles` set the section stands between the two, and it lists every element of
`filePaths` once, in `filePaths` order, whatever the results are (a file without match is
listed as well): quoted and escaped by `_cleanStr` in JSON, as a `<file>` element in XML, on a
line of its own in the text format. -/
theorem examined_files_section_only_when_requested (env : Env)
    (results : JsObject (List MatchRecord)) (numResults : Nat) :
    (∀ options filePaths1 filePaths2, options.outputExaminedFiles = false →
      getJSONLogFormat env options filePaths1 results numResults
        = getJSONLogFormat env options filePaths2 results numResults
      ∧ getXMLLogFormat env options filePaths1 results numResults
        = getXMLLogFormat env options filePaths2 results numResults
      ∧ getTextLogFormat env options filePaths1 results numResults
        = getTextLogFormat env options filePaths2 results numResults)
    ∧ (∃ jsonPart xmlPart textPart : String, ∀ options filePaths,
        getJSONLogFormat env options filePaths results numResults
          = jsonPart
            ++ (if options.outputExaminedFiles = true then
                  ",\n\t\"examinedFiles\": [\n"
                    ++ String.intercalate ",\n"
                        (filePaths.map fun p => "\t\t\"" ++ cleanStr p ++ "\"")
                    ++ "\n\t]"
                else "")
            ++ "\n\x7d"
        ∧ getXMLLogFormat env options filePaths results numResults
          = xmlPart
            ++ (if options.outputExaminedFiles = true then
                  "\t<examinedFiles>\n"
                    ++ String.join (filePaths.map fun p => "\t\t<file>" ++ p ++ "</file>\n")
                    ++ "\t</examinedFiles>\n"
                else "")
            ++ "</search>"
        ∧ getTextLogFormat env options filePaths results numResults
          = textPart
            ++ (if options.outputExaminedFiles = true then
                  "Examined files:\n"
                    ++ String.join (filePaths.map fun p => "\t" ++ p ++ "\n")
                else "")) := by
  refine ⟨?_, ?_⟩
  · intro options filePaths1 filePaths2 h
    simp only [getJSONLogFormat_eq, getXMLLogFormat_eq, getTextLogFormat_eq, h,
      Bool.false_eq_true, if_false, and_self]
  · refine ⟨"\x7b\n\t\"numResults\": " ++ toString numResults ++ ",\n"
        ++ "\t\"creationDate\": \"" ++ getISODateString env.now ++ "\",\n"
        ++ "\t\"results\": \x7b\n"
        ++ String.intercalate ",\n" ((forInKeys results).map (jsonGroup results))
        ++ "\n\t\x7d",
      "<?xml version=\"1.0\"?>\n"
        ++ "<search>\n"
        ++ "\t<numResults>" ++ toString numResults ++ "</numResults>\n"
        ++ "\t<creationDate>" ++ getISODateString env.now ++ "</creationDate>\n"
        ++ "\t<results>"
        ++ String.join ((renderedEntries results).map fun e => xmlResult e.1 e.2)
        ++ "\n"
        ++ "\t</results>\n",
      "Num results: " ++ toString numResults ++ "\n"
        ++ "Creation date: " ++ getISODateString env.now ++ "\n"
        ++ "Results:\n"
        ++ String.join ((renderedEntries results).map fun e => textEntry e.1 e.2), ?_⟩
    intro options filePaths
    exact ⟨getJSONLogFormat_eq env options filePaths results numResults,
      getXMLLogFormat_eq env options filePaths results numResults,
      getTextLogFormat_eq env options filePaths results numResults⟩

/-- C13 in the scenario: the text report of the scan of `A` and `B` with the section, which
lists `A` and also `B`, the file without match. -/
theorem examined_files_section_only_when_requested_witness :
    ({ todoOptions with outputExaminedFiles := false } : Options).outputExaminedFiles = false
    ∧ getTextLogFormat todoEnv { todoOptions with outputExaminedFiles := false } ["A", "B"]
          (scan todoEnv todoOptions (literalRegExp "TODO") ["A", "B"]).results 2
        = getTextLogFormat todoEnv { todoOptions with outputExaminedFiles := false } []
          (scan todoEnv todoOptions (literalRegExp "TODO") ["A", "B"]).results 2
    ∧ getTextLogFormat todoEnv { todoOptions with outputExaminedFiles := true } ["A", "B"]
          (scan todoEnv todoOptions (literalRegExp "TODO") ["A", "B"]).results 2
        = "Num results: 2\nCreation date: 2013-05-09 07:05:03\nResults:\n\tFile: A\n\tLine: 1\n\tMatch: TODO\n\n\tFile: A\n\tLine: 3\n\tMatch: TODO\n\nExamined files:\n\tA\n\tB\n" :=
  ⟨rfl,
   ((examined_files_section_only_when_requested todoEnv
      (scan todoEnv todoOptions (literalRegExp "TODO") ["A", "B"]).results 2).1
      { todoOptions with outputExaminedFiles := false } ["A", "B"] [] rfl).2.2,
   by rfl⟩

/-- C18: the XML content is the declaration line, then the `<search>` element holding
`<numResults>`, `<creationDate>` and `<results>` in this order (and the examined-files
section when requested); `<results>` holds one `<result>` element per visited record and
nothing else, files as `for (var file in results)` enumerates them and records of a file by
index, each with `<file>`, `<line>`, `<match>` in this order and with the file path and the
match text inserted as they are.  When the keys of the object are distinct the visited
records are all records of the object, each once, and in the stored order when no key is an
array index; without own properties `<results>` is empty. -/
theorem getXMLLogFormat_structure (env : Env) (options : Options) (filePaths : List String)
    (results : JsObject (List MatchRecord)) (numResults : Nat) :
    getXMLLogFormat env options filePaths results numResults
      = "<?xml version=\"1.0\"?>\n"
        ++ "<search>\n"
        ++ "\t<numResults>" ++ toString numResults ++ "</numResults>\n"
        ++ "\t<creationDate>" ++ getISODateString env.now ++ "</creationDate>\n"
        ++ "\t<results>"
        ++ String.join ((renderedEntries results).map fun e =>
            "\n\t\t<result>\n"
              ++ "\t\t\t<file>" ++ e.1 ++ "</file>\n"
              ++ "\t\t\t<line>" ++ toString e.2.line ++ "</line>\n"
              ++ "\t\t\t<match>" ++ e.2.matched ++ "</match>\n"
              ++ "\t\t</result>")
        ++ "\n"
        ++ "\t</results>\n"
        ++ (if options.outputExaminedFiles = true then xmlExaminedFiles filePaths else "")
        ++ "</search>"
    ∧ renderedEntries results
        = ((forInKeys results).flatMap fun file =>
            (resultsOf results file).map fun r => (file, r))
    ∧ ((JsObject.keys results).Nodup →
        (renderedEntries results).Perm
          (results.own.flatMap fun e => e.2.map fun r => (e.1, r)))
    ∧ ((JsObject.keys results).Nodup → (∀ k ∈ JsObject.keys results, arrayIndex k = none) →
        renderedEntries results = results.own.flatMap fun e => e.2.map fun r => (e.1, r))
    ∧ ∀ proto, getXMLLogFormat env options filePaths { own := [], proto := proto } numResults
        = "<?xml version=\"1.0\"?>\n"
          ++ "<search>\n"
          ++ "\t<numResults>" ++ toString numResults ++ "</numResults>\n"
          ++ "\t<creationDate>" ++ getISODateString env.now ++ "</creationDate>\n"
          ++ "\t<results>" ++ "\n"
          ++ "\t</results>\n"
          ++ (if options.outputExaminedFiles = true then xmlExaminedFiles filePaths else "")
          ++ "</search>" := by
  refine ⟨?_, rfl, ?_, ?_, ?_⟩
  · have h := getXMLLogFormat_eq env options filePaths results numResults
    simp only [xmlResult] at h
    exact h
  · exact renderedEntries_perm results
  · exact renderedEntries_of_no_index results
  · intro proto
    have hr : renderedEntries ({ own := [], proto := proto } : JsObject (List MatchRecord))
        = [] :=
      renderedEntries_of_no_index _ (by simp [JsObject.keys, Props.keys])
        (by simp [JsObject.keys, Props.keys])
    rw [getXMLLogFormat_eq, hr]
    simp [String.join]

/-- C18 on a result with one record of file `A`: the XML report, with a match text holding
markup characters left as it is. -/
theorem getXMLLogFormat_structure_witness :
    (JsObject.keys ({ own := [("A", [{ line := 1, matched := "a<b&c" }])], proto := none } :
        JsObject (List MatchRecord))).Nodup
    ∧ renderedEntries { own := [("A", [{ line := 1, matched := "a<b&c" }])], proto := none }
        = [("A", { line := 1, matched := "a<b&c" })]
    ∧ getXMLLogFormat todoEnv todoOptions ["A"]
        { own := [("A", [{ line := 1, matched := "a<b&c" }])], proto := none } 1
        = "<?xml version=\"1.0\"?>\n<search>\n\t<numResults>1</numResults>\n\t<creationDate>2013-05-09 07:05:03</creationDate>\n\t<results>\n\t\t<result>\n\t\t\t<file>A</file>\n\t\t\t<line>1</line>\n\t\t\t<match>a<b&c</match>\n\t\t</result>\n\t</results>\n</search>" :=
  ⟨by decide,
   (getXMLLogFormat_structure todoEnv todoOptions ["A"]
      { own := [("A", [{ line := 1, matched := "a<b&c" }])], proto := none } 1).2.2.2.1
      (by decide) (by decide),
   by rfl⟩

set_option maxRecDepth 8192 in
/-- C16 as stated fails: files `10` and `7` are scanned in this order and both match, so `10`
receives its match first, but every encoder renders the group of `7` before the group of
`10`, and so does the report that the task writes. -/
theorem result_groups_of_integer_paths_reordered :
    JsObject.keys (scan numberedEnv todoOptions (literalRegExp "TODO") ["10", "7"]).results
      = ["10", "7"]
    ∧ matchedFiles numberedEnv (literalRegExp "TODO") ["10", "7"] = ["10", "7"]
    ∧ forInKeys (scan numberedEnv todoOptions (literalRegExp "TODO") ["10", "7"]).results
      = ["7", "10"]
    ∧ getTextLogFormat numberedEnv todoOptions ["10", "7"]
        (scan numberedEnv todoOptions (literalRegExp "TODO") ["10", "7"]).results 2
      = "Num results: 2\nCreation date: 2013-05-09 07:05:03\nResults:\n\tFile: 7\n\tLine: 1\n\tMatch: TODO\n\n\tFile: 10\n\tLine: 1\n\tMatch: TODO\n\n"
    ∧ getJSONLogFormat numberedEnv todoOptions ["10", "7"]
        (scan numberedEnv todoOptions (literalRegExp "TODO") ["10", "7"]).results 2
      = "\x7b\n\t\"numResults\": 2,\n\t\"creationDate\": \"2013-05-09 07:05:03\",\n\t\"results\": \x7b\n\t\t\"7\": [\n\t\t\t\x7b\n\t\t\t\t\"line\": 1,\n\t\t\t\t\"match\": \"TODO\"\n\t\t\t\x7d\n\t\t],\n\t\t\"10\": [\n\t\t\t\x7b\n\t\t\t\t\"line\": 1,\n\t\t\t\t\"match\": \"TODO\"\n\t\t\t\x7d\n\t\t]\n\t\x7d\n\x7d"
    ∧ getXMLLogFormat numberedEnv todoOptions ["10", "7"]
        (scan numberedEnv todoOptions (literalRegExp "TODO") ["10", "7"]).results 2
      = "<?xml version=\"1.0\"?>\n<search>\n\t<numResults>2</numResults>\n\t<creationDate>2013-05-09 07:05:03</creationDate>\n\t<results>\n\t\t<result>\n\t\t\t<file>7</file>\n\t\t\t<line>1</line>\n\t\t\t<match>TODO</match>\n\t\t</result>\n\t\t<result>\n\t\t\t<file>10</file>\n\t\t\t<line>1</line>\n\t\t\t<match>TODO</match>\n\t\t</result>\n\t</results>\n</search>"
    ∧ fileWrites (searchTask numberedEnv { todoOptions with logFormat := "text" }
        [["10", "7"]])
      = [(some "out.json",
          "Num results: 2\nCreation date: 2013-05-09 07:05:03\nResults:\n\tFile: 7\n\tLine: 1\n\tMatch: TODO\n\n\tFile: 10\n\tLine: 1\n\tMatch: TODO\n\n")] := by
  refine ⟨by rfl, by rfl, by rfl, by rfl, by rfl, by rfl, by rfl⟩

/-- C16, amended: for a list of file paths without the name `__proto__`, scanned without
exception, the keys of `matches` are the files with a match in the order in which they first
received one, `matches` keeps its prototype, and in every report format the per-file result
groups are rendered in the order of `for (var file in results)`: first the files whose path
is an array index (the decimal form of an integer below `2^32 - 1`), in ascending numeric
order, then the other files in the order in which they first received a match during the
scan; so when no path is an array index the groups are rendered in `filePaths` order
restricted to the files with at least one match. -/
theorem result_groups_in_for_in_order (env : Env) (options : Options) (re : RegExp)
    (filePaths : List String) (hp : "__proto__" ∉ filePaths)
    (ht : (scan env options re filePaths).thrown = false) :
    JsObject.keys (scan env options re filePaths).results = matchedFiles env re filePaths
    ∧ (scan env options re filePaths).results.proto = none
    ∧ forInKeys (scan env options re filePaths).results
        = (((matchedFiles env re filePaths).filterMap arrayIndex).insertionSort
              (· ≤ ·)).map toString
          ++ (matchedFiles env re filePaths).filter (fun k => (arrayIndex k).isNone)
    ∧ ((∀ p ∈ filePaths, arrayIndex p = none) →
        forInKeys (scan env options re filePaths).results = matchedFiles env re filePaths)
    ∧ (∀ f, f ∈ matchedFiles env re filePaths
        ↔ f ∈ filePaths ∧ ∃ line ∈ splitLines (env.read f), re.occurrences line ≠ [])
    ∧ (matchedFiles env re filePaths).Nodup
    ∧ (filePaths.Nodup → matchedFiles env re filePaths
        = filePaths.filter (fun f => !(fileRecords env re f).isEmpty))
    ∧ ∀ (results : JsObject (List MatchRecord)) (numResults : Nat),
        getJSONLogFormat env options filePaths results numResults
          = "\x7b\n\t\"numResults\": " ++ toString numResults ++ ",\n"
            ++ "\t\"creationDate\": \"" ++ getISODateString env.now ++ "\",\n"
            ++ "\t\"results\": \x7b\n"
            ++ String.intercalate ",\n" ((forInKeys results).map (jsonGroup results))
            ++ "\n\t\x7d"
            ++ (if options.outputExaminedFiles = true then jsonExaminedFiles filePaths else "")
            ++ "\n\x7d"
        ∧ getXMLLogFormat env options filePaths results numResults
          = "<?xml version=\"1.0\"?>\n"
            ++ "<search>\n"
            ++ "\t<numResults>" ++ toString numResults ++ "</numResults>\n"
            ++ "\t<creationDate>" ++ getISODateString env.now ++ "</creationDate>\n"
            ++ "\t<results>"
            ++ String.join (((forInKeys results).flatMap fun file =>
                (resultsOf results file).map fun r => (file, r)).map
                  fun e => xmlResult e.1 e.2)
            ++ "\n"
            ++ "\t</results>\n"
            ++ (if options.outputExaminedFiles = true then xmlExaminedFiles filePaths else "")
            ++ "</search>"
        ∧ getTextLogFormat env options filePaths results numResults
          = "Num results: " ++ toString numResults ++ "\n"
            ++ "Creation date: " ++ getISODateString env.now ++ "\n"
            ++ "Results:\n"
            ++ String.join (((forInKeys results).flatMap fun file =>
                (resultsOf results file).map fun r => (file, r)).map
                  fun e => textEntry e.1 e.2)
            ++ (if options.outputExaminedFiles = true then textExaminedFiles filePaths
                else "") := by
  have hk := (scan_keys env options re filePaths hp ht).1
  have hproto := (scan_keys env options re filePaths hp ht).2
  have hmem : ∀ l : List String, ∀ f, f ∈ firstOccurrences l ↔ f ∈ l := by
    intro l
    induction l with
    | nil => simp [firstOccurrences]
    | cons a rest ih =>
      intro f
      simp only [firstOccurrences, List.mem_cons, List.mem_filter, ih, decide_eq_true_eq]
      constructor
      · rintro (h | ⟨h, _⟩)
        · exact Or.inl h
        · exact Or.inr h
      · rintro (h | h)
        · exact Or.inl h
        · by_cases hfa : f = a
          · exact Or.inl hfa
          · exact Or.inr ⟨h, hfa⟩
  have hnd : ∀ l : List String, (firstOccurrences l).Nodup := by
    intro l
    induction l with
    | nil => simp [firstOccurrences]
    | cons a rest ih =>
      simp only [firstOccurrences, List.nodup_cons, List.mem_filter, decide_eq_true_eq]
      exact ⟨fun h => h.2 rfl, ih.filter _⟩
  have hid : ∀ l : List String, l.Nodup → firstOccurrences l = l := by
    intro l
    induction l with
    | nil => simp [firstOccurrences]
    | cons a rest ih =>
      intro h
      rw [List.nodup_cons] at h
      simp only [firstOccurrences, ih h.2]
      congr 1
      rw [List.filter_eq_self]
      intro g hg
      have : g ≠ a := fun e => h.1 (e ▸ hg)
      simp [this]
  refine ⟨hk, hproto, ?_, ?_, ?_, hnd _, ?_, ?_⟩
  · rw [forInKeys, hk, inheritedKeys_of_no_proto _ hproto, List.append_nil]
  · intro hidx
    rw [forInKeys_of_no_index, inheritedKeys_of_no_proto _ hproto, List.append_nil, hk]
    intro k hkm
    rw [hk, matchedFiles, hmem] at hkm
    exact hidx k (List.mem_filter.mp hkm).1
  · intro f
    rw [matchedFiles, hmem, List.mem_filter]
    have hne : (!(fileRecords env re f).isEmpty) = true
        ↔ ∃ line ∈ splitLines (env.read f), re.occurrences line ≠ [] := by
      have h1 : (!(fileRecords env re f).isEmpty) = true ↔ 0 < (fileRecords env re f).length := by
        cases fileRecords env re f <;> simp
      rw [h1, fileRecords_length, matchingLineCount, List.length_pos]
      constructor
      · intro h
        obtain ⟨l, hl⟩ := List.exists_mem_of_ne_nil _ h
        rw [List.mem_filter] at hl
        exact ⟨l, hl.1, by simpa using hl.2⟩
      · rintro ⟨l, hl, ho⟩
        exact List.ne_nil_of_mem (List.mem_filter.mpr ⟨hl, by simpa using ho⟩)
    rw [hne]
  · intro h
    exact hid _ (h.filter _)
  · intro results numResults
    exact ⟨getJSONLogFormat_eq env options filePaths results numResults,
      getXMLLogFormat_eq env options filePaths results numResults,
      getTextLogFormat_eq env options filePaths results numResults⟩

/-- C16, amended, in the scenario: `B`, `A`, `B` are scanned, no path is an array index, and
the only group is the one of `A`; when every file has a match, the text report of the files
`b`, `a`, `b` renders the group of `b`, with its two records, before the group of `a`. -/
theorem result_groups_in_for_in_order_witness :
    "__proto__" ∉ ["B", "A", "B"]
    ∧ (scan todoEnv todoOptions (literalRegExp "TODO") ["B", "A", "B"]).thrown = false
    ∧ (∀ p ∈ ["B", "A", "B"], arrayIndex p = none)
    ∧ forInKeys (scan todoEnv todoOptions (literalRegExp "TODO") ["B", "A", "B"]).results
        = matchedFiles todoEnv (literalRegExp "TODO") ["B", "A", "B"]
    ∧ matchedFiles todoEnv (literalRegExp "TODO") ["B", "A", "B"] = ["A"]
    ∧ matchedFiles numberedEnv (literalRegExp "TODO") ["b", "a", "b", "c"] = ["b", "a", "c"]
    ∧ fileWrites (searchTask numberedEnv { todoOptions with logFormat := "text" }
        [["b", "a", "b"]])
      = [(some "out.json",
          "Num results: 3\nCreation date: 2013-05-09 07:05:03\nResults:\n\tFile: b\n\tLine: 1\n\tMatch: TODO\n\n\tFile: b\n\tLine: 1\n\tMatch: TODO\n\n\tFile: a\n\tLine: 1\n\tMatch: TODO\n\n")] :=
  ⟨by decide, by decide, by decide,
   (result_groups_in_for_in_order todoEnv todoOptions (literalRegExp "TODO")
      ["B", "A", "B"] (by decide) (by decide)).2.2.2.1 (by decide),
   by decide, by decide, by rfl⟩

set_option maxRecDepth 16384 in
/-- C11 fails on the code: a file named `a"b` with a matching line is reported under the key
`"a"b"`, its double quote not escaped, while the same path is escaped in `examinedFiles` and a
double quote in a match text is escaped. -/
theorem json_results_key_not_escaped :
    (scan numberedEnv todoOptions (literalRegExp "TODO") ["a\"b"]).results
      = { own := [("a\"b", [{ line := 1, matched := "TODO" }])], proto := none }
    ∧ getJSONLogFormat numberedEnv { todoOptions with outputExaminedFiles := true } ["a\"b"]
        { own := [("a\"b", [{ line := 1, matched := "TODO" }])], proto := none } 1
      = "\x7b\n\t\"numResults\": 1,\n\t\"creationDate\": \"2013-05-09 07:05:03\",\n\t\"results\": \x7b\n\t\t\"a\"b\": [\n\t\t\t\x7b\n\t\t\t\t\"line\": 1,\n\t\t\t\t\"match\": \"TODO\"\n\t\t\t\x7d\n\t\t]\n\t\x7d,\n\t\"examinedFiles\": [\n\t\t\"a\\\"b\"\n\t]\n\x7d"
    ∧ jsonGroup { own := [("a\"b", [{ line := 1, matched := "say \"hi\"" }])], proto := none }
        "a\"b"
      = "\t\t\"a\"b\": [\n\t\t\t\x7b\n\t\t\t\t\"line\": 1,\n\t\t\t\t\"match\": \"say \\\"hi\\\"\"\n\t\t\t\x7d\n\t\t]"
    ∧ jsonExaminedFiles ["a\"b"] = ",\n\t\"examinedFiles\": [\n\t\t\"a\\\"b\"\n\t]" := by
  refine ⟨by rfl, by rfl, by rfl, by rfl⟩

set_option maxRecDepth 16384 in
/-- C12 fails on the code: the JSON report of a scan whose match text is a backslash (the
line `cd C:\` searched with the regular expression `/\\/g`) is not a well-formed JSON text, the backslash being copied as
it is before the closing quote; nor is the report of a file named `a"b`.  The reports of the
scenario, with and without results, are well formed. -/
theorem json_report_not_well_formed :
    (literalRegExp "\\").toString = "/\\\\/g"
    ∧ (scan backslashEnv todoOptions (literalRegExp "\\") ["A"]).results
      = { own := [("A", [{ line := 1, matched := "\\" }])], proto := none }
    ∧ getJSONLogFormat backslashEnv todoOptions ["A"]
        { own := [("A", [{ line := 1, matched := "\\" }])], proto := none } 1
      = "\x7b\n\t\"numResults\": 1,\n\t\"creationDate\": \"2013-05-09 07:05:03\",\n\t\"results\": \x7b\n\t\t\"A\": [\n\t\t\t\x7b\n\t\t\t\t\"line\": 1,\n\t\t\t\t\"match\": \"\\\"\n\t\t\t\x7d\n\t\t]\n\t\x7d\n\x7d"
    ∧ jsonWellFormed (getJSONLogFormat backslashEnv todoOptions ["A"]
        { own := [("A", [{ line := 1, matched := "\\" }])], proto := none } 1) = false
    ∧ jsonWellFormed (getJSONLogFormat numberedEnv todoOptions ["a\"b"]
        { own := [("a\"b", [{ line := 1, matched := "TODO" }])], proto := none } 1) = false
    ∧ jsonWellFormed (getJSONLogFormat todoEnv { todoOptions with outputExaminedFiles := true }
        ["A", "B"]
        { own := [("A", [{ line := 1, matched := "TODO" }, { line := 3, matched := "TODO" }])],
          proto := none } 2) = true
    ∧ jsonWellFormed (getJSONLogFormat todoEnv todoOptions [] JsObject.empty 0) = true := by
  refine ⟨by rfl, by rfl, by rfl, by rfl, by rfl, by rfl, by rfl⟩

end GruntSearch
